import Mathlib

/-!
Shallow embedding of the MindNotes daily prompt rotation engine
(`mindnotesBackend/core/prompt_service.py`) together with the PostgreSQL
models (`prompts/models.py`) and MongoDB documents (`prompts/mongo_models.py`)
that it reads and writes.

Randomness (`random.choice`, `random.shuffle`, `random.sample`) is modelled by
an explicit tape of natural numbers: each draw consumes one tape entry and
interprets it modulo the size of the collection drawn from.  All theorems are
quantified over every tape, so they cover every outcome of the Python RNG.
-/

namespace MindNotes

open scoped List

/-- Tape of pseudo-random draws; one entry is consumed per `random.*` call. -/
abbrev RandTape := List Nat

/-- Model of `random.choice(l)`: an element at a tape-chosen index (`none` iff `l = []`,
where Python raises `IndexError`). -/
def randChoice (s : Nat) (l : List α) : Option α := l.get? (s % l.length)

/-- Model of `random.shuffle`: repeatedly move a tape-chosen element to the
front.  Quantifying over all tapes yields every permutation of the input. -/
def shuffleWith [DecidableEq α] : RandTape → List α → List α
  | [], l => l
  | r :: rs, l =>
    match randChoice r l with
    | none => l
    | some x => x :: shuffleWith rs (l.erase x)

/-- Embedding of `prompts.models.PromptCategory` (PostgreSQL reference data). -/
structure PCategory where
  name : String
  icon : String
  color : String
  is_active : Bool
deriving DecidableEq

/-- Embedding of `prompts.models.DailyPrompt` (PostgreSQL prompt bank row). -/
structure DailyPrompt where
  id : Nat
  category : Option PCategory
  question : String
  description : String
  tags : List String
  difficulty : String
  is_active : Bool
deriving DecidableEq

/-- The expression `prompt.category.name if prompt.category else 'General'`. -/
def catName (p : DailyPrompt) : String :=
  match p.category with
  | some c => c.name
  | none => "General"

/-- One entry of `DailyPromptSetMongo.prompts`: the denormalized snapshot dict
built in `generate_daily_prompts`. -/
structure PromptData where
  id : Nat
  question : String
  description : String
  category : String
  category_icon : String
  category_color : String
  tags : List String
  difficulty : String
deriving DecidableEq

/-- The snapshot dict appended to `prompts_data` for a selected prompt. -/
def toPromptData (p : DailyPrompt) : PromptData :=
  { id := p.id
    question := p.question
    description := p.description
    category := match p.category with | some c => c.name | none => "General"
    category_icon := match p.category with | some c => c.icon | none => "📝"
    category_color := match p.category with | some c => c.color | none => "#3B82F6"
    tags := p.tags
    difficulty := p.difficulty }

/-- Embedding of `prompts.mongo_models.DailyPromptSetMongo` (dates as integer day numbers). -/
structure DailyPromptSetMongo where
  user_id : Nat
  date : Int
  is_active : Bool
  prompts : List PromptData
  completed_prompt_ids : List Nat
  completed_count : Nat
  is_fully_completed : Bool
deriving DecidableEq

/-- Embedding of `prompts.mongo_models.PromptResponseMongo`. -/
structure PromptResponseMongo where
  user_id : Nat
  prompt_id : Nat
  daily_set_date : Int
  response : String
  word_count : Nat
  time_spent_seconds : Nat
  mood_at_response : Option Int
  is_active : Bool
deriving DecidableEq

/-- The persistent state the service reads and writes: the two PostgreSQL
tables and the two MongoDB collections.  `nextId` models the auto-increment
primary key of `DailyPrompt`. -/
structure Store where
  categories : List PCategory
  catalog : List DailyPrompt
  nextId : Nat
  dailySets : List DailyPromptSetMongo
  responses : List PromptResponseMongo
deriving DecidableEq

/-- The query `DailyPromptSetMongo.objects(user_id=.., date=..).first()`. -/
def findSet (st : Store) (u : Nat) (d : Int) : Option DailyPromptSetMongo :=
  st.dailySets.find? fun s => s.user_id == u && s.date == d

/-- The set `{r.prompt_id for r in PromptResponseMongo.objects(user_id=user.id)}` —
the user's entire lifetime response history. -/
def used_prompt_ids (st : Store) (u : Nat) : List Nat :=
  (st.responses.filter fun r => r.user_id == u).map fun r => r.prompt_id

/-- The query `DailyPrompt.objects.filter(is_active=True).exclude(id__in=used)`. -/
def availablePrompts (st : Store) (used : List Nat) : List DailyPrompt :=
  st.catalog.filter fun p => p.is_active && !(used.contains p.id)

/-! ### `_select_diverse_prompts`

Python groups the candidates into a dict keyed by category name (keys in
first-occurrence order, each value keeping the original order of its items —
exactly `categoryKeys` / `filter` below), shuffles the key list, iterates over
the shuffled keys and indexes the dict.  We represent the dict as the
association list `groupByCategory`, shuffle it, and iterate over it; with the
keys pairwise distinct the two presentations coincide. -/

/-- Keys of the Python grouping dict, in first-occurrence order. -/
def categoryKeys (l : List DailyPrompt) : List String :=
  l.foldl (fun acc p => if catName p ∈ acc then acc else acc ++ [catName p]) []

/-- The grouping dict `by_category` built by `_select_diverse_prompts`. -/
def groupByCategory (l : List DailyPrompt) : List (String × List DailyPrompt) :=
  (categoryKeys l).map fun c => (c, l.filter fun p => catName p = c)

/-- The pooled list `[p for proms in by_category.values() for p in proms]`. -/
def allGroups (gs : List (String × List DailyPrompt)) : List DailyPrompt :=
  (gs.map Prod.snd).flatten

/-- The mutation `by_category[cat].remove(prompt)`: drop the first occurrence of `p` from
the group keyed `c` (Python raises if `cat` is not a key or `p` not in that
group; in every reachable state `p` is in the group keyed `catName p`). -/
def eraseFromGroups (gs : List (String × List DailyPrompt)) (c : String)
    (p : DailyPrompt) : List (String × List DailyPrompt) :=
  gs.map fun g => if g.1 = c then (g.1, g.2.erase p) else g

/-- First pass of `_select_diverse_prompts`: walk the shuffled groups, taking
one tape-chosen item from each group until `count` items are chosen, removing
each pick from its group.  Returns the picks, the updated groups and the
remaining tape.  (The `none` branch is Python's `IndexError` on an empty
group; groups produced by `groupByCategory` are never empty.) -/
def firstPass (count : Nat) :
    List (String × List DailyPrompt) → RandTape → List DailyPrompt →
      List DailyPrompt × List (String × List DailyPrompt) × RandTape
  | [], t, selected => (selected, [], t)
  | (c, g) :: rest, t, selected =>
    if count ≤ selected.length then (selected, (c, g) :: rest, t)
    else
      match randChoice (t.headD 0) g with
      | none => (selected, (c, g) :: rest, t)
      | some p =>
        let r := firstPass count rest t.tail (selected ++ [p])
        (r.1, (c, g.erase p) :: r.2.1, r.2.2)

/-- Second pass: `while len(selected) < count`, pool the remaining grouped
items, take a tape-chosen one, and remove it from its group.  Each iteration
grows `selected` by one, so `count` units of fuel make the fuel bound
unreachable (the loop stops at `count` picks or an empty pool). -/
def secondPass (count : Nat) :
    Nat → List (String × List DailyPrompt) → RandTape → List DailyPrompt →
      List DailyPrompt × RandTape
  | 0, _, t, selected => (selected, t)
  | fuel + 1, groups, t, selected =>
    if count ≤ selected.length then (selected, t)
    else
      let remaining := allGroups groups
      match randChoice (t.headD 0) remaining with
      | none => (selected, t)
      | some p =>
          secondPass count fuel (eraseFromGroups groups (catName p) p) t.tail
            (selected ++ [p])

/-- Embedding of `PromptService._select_diverse_prompts`. -/
def select_diverse_prompts (t : RandTape) (prompts_list : List DailyPrompt)
    (count : Nat) : List DailyPrompt :=
  if prompts_list.length ≤ count then prompts_list
  else
    let by_category := groupByCategory prompts_list
    let shuffled := shuffleWith (t.take by_category.length) by_category
    let t1 := t.drop by_category.length
    let fp := firstPass count shuffled t1 []
    let sp := secondPass count count fp.2.1 fp.2.2 fp.1
    shuffleWith (sp.2.take sp.1.length) sp.1

/-! ### `_generate_dynamic_prompts` (procedural replenisher) -/

/-- The `category_tag_map` lookup of `PromptService._get_tags_for_category`. -/
def category_tag_map (category_name : String) : List String :=
  if category_name = "Gratitude" then ["Grateful", "Happy", "Calm", "Reflection"]
  else if category_name = "Growth" then ["Learning", "Achievement", "Goal", "Breakthrough"]
  else if category_name = "Relationships" then ["Family", "Relationships", "Grateful"]
  else if category_name = "Challenges" then ["Stressed", "Achievement", "Confident", "Reflection"]
  else if category_name = "Self-Discovery" then ["Reflection", "Important", "Question", "Learning"]
  else if category_name = "Wellness" then ["Health", "Self-care", "Meditation", "Calm"]
  else if category_name = "Creativity" then ["Idea", "Excited", "Dream", "Hobby"]
  else if category_name = "Reflection" then ["Reflection", "Memory", "Learning", "Review"]
  else []

/-- Model of `random.sample(available_tags, 2) if available_tags else []`: two draws at
distinct positions.  (Python raises if `available_tags` has exactly one
element; every non-empty entry of the tag map has at least three.) -/
def get_tags_for_category (t : RandTape) (category_name : String) :
    List String × RandTape :=
  let available_tags := category_tag_map category_name
  if available_tags.isEmpty then ([], t)
  else
    let i := t.headD 0 % available_tags.length
    let first := (available_tags.get? i).getD ""
    let rest := available_tags.eraseIdx i
    let second := (rest.get? (t.tail.headD 0 % rest.length)).getD ""
    ([first, second], t.tail.tail)

/-- Embedding of `PromptService._get_prompt_templates()`. -/
def prompt_templates : List String :=
  [ "What unexpected moment brought you joy {time_period}?",
    "Who showed you kindness {time_period} and how did it impact you?",
    "What comfort or blessing did you take for granted {time_period}?",
    "What skill or strength are you currently grateful to possess?",
    "What lesson from your past continues to serve you well?",
    "What new perspective did you gain {time_period}?",
    "How did you challenge yourself {time_period}?",
    "What feedback or insight helped you improve recently?",
    "What pattern in your behavior are you becoming aware of?",
    "What would your future self thank you for doing today?",
    "How did you strengthen a relationship {time_period}?",
    "What conversation left a lasting impression on you?",
    "Who needs your attention or support right now?",
    "What quality in others do you want to cultivate in yourself?",
    "How did you practice empathy or understanding {time_period}?",
    "What difficult choice did you navigate {time_period}?",
    "How are you managing uncertainty in your life?",
    "What fear or doubt are you working through?",
    "What obstacle taught you something about your resilience?",
    "How did you practice self-compassion during difficulty?",
    "What truth about yourself became clearer {time_period}?",
    "What do you need to give yourself permission to do?",
    "What part of your identity is evolving right now?",
    "What value guides your decisions most strongly?",
    "What does authentic living mean to you currently?",
    "How did you honor your body's needs {time_period}?",
    "What boundary protected your wellbeing recently?",
    "How did you create space for rest or restoration?",
    "What brings you a sense of groundedness or peace?",
    "How are you balancing effort and ease in your life?",
    "What idea or possibility excites you right now?",
    "How did you express yourself uniquely {time_period}?",
    "What would you create if resources weren't a limitation?",
    "What problem are you approaching from a new angle?",
    "What inspired your imagination or curiosity {time_period}?",
    "What moment from {time_period} will you remember and why?",
    "How has your perspective shifted over time?",
    "What pattern or theme keeps appearing in your life?",
    "What are you learning about what truly matters to you?",
    "If you could give advice to someone in your situation, what would it be?" ]

/-- Embedding of `PromptService._select_next_template`: pick among the templates not yet
used in this batch, clearing the used set once all have been used. -/
def select_next_template (t : RandTape) (templates : List String)
    (templates_used : List String) : String × List String × RandTape :=
  let available := templates.filter fun x => !(templates_used.contains x)
  let avail := if available.isEmpty then templates else available
  let used := if available.isEmpty then [] else templates_used
  let tmpl := ((randChoice (t.headD 0) avail).getD "")
  (tmpl, used ++ [tmpl], t.tail)

def time_periods : List String :=
  ["today", "this week", "recently", "lately", "in the past few days"]

/-- Does the pattern occur as a contiguous run of `l`?  (`'pat' in s`.) -/
def containsSub (pat : List Char) : List Char → Bool
  | [] => pat.isPrefixOf []
  | c :: cs => pat.isPrefixOf (c :: cs) || containsSub pat cs

/-- Replace every occurrence of a (non-empty) pattern, scanning left to right;
fuel is the length of the scanned list, consumed one character per step. -/
def replaceSub (pat rep : List Char) : Nat → List Char → List Char
  | _, [] => []
  | 0, l => l
  | fuel + 1, c :: cs =>
    if pat.isPrefixOf (c :: cs) then rep ++ replaceSub pat rep fuel ((c :: cs).drop pat.length)
    else c :: replaceSub pat rep fuel cs

/-- Embedding of `PromptService._format_question_from_template`: resolve the
`time_period` placeholder with a tape-chosen phrase. -/
def format_question_from_template (t : RandTape) (template : String) :
    String × RandTape :=
  let pat := "{time_period}".data
  if containsSub pat template.data then
    let phrase := ((randChoice (t.headD 0) time_periods).getD "")
    (String.mk (replaceSub pat phrase.data template.data.length template.data), t.tail)
  else (template, t)

/-- Embedding of `PromptService._create_prompt_if_unique`: skip when the exact question
text already exists in the catalog, otherwise insert a fresh active row. -/
def create_prompt_if_unique (st : Store) (question : String)
    (category : Option PCategory) (difficulty : String) (tags : List String) :
    Option DailyPrompt × Store :=
  if st.catalog.any fun p => p.question = question then (none, st)
  else
    let p : DailyPrompt :=
      { id := st.nextId
        category := category
        question := question
        description := "Dynamic prompt - generated for continuous variety"
        tags := tags
        difficulty := difficulty
        is_active := true }
    (some p, { st with catalog := st.catalog ++ [p], nextId := st.nextId + 1 })

def difficulty_levels : List String := ["easy", "medium", "deep"]

/-- The random draws of one iteration of the `for _ in range(count)` loop of
`_generate_dynamic_prompts`: resolved question, category, difficulty, tags,
updated used-template set, remaining tape. -/
structure Draw where
  question : String
  category : Option PCategory
  difficulty : String
  tags : List String
  templates_used : List String
  tape : RandTape

/-- One iteration's draws, in the order the Python code performs them:
template, time-period phrase, category, difficulty, tag sample. -/
def drawPrompt (cats : List PCategory) (t : RandTape)
    (templates_used : List String) : Draw :=
  let sel := select_next_template t prompt_templates templates_used
  let fq := format_question_from_template sel.2.2 sel.1
  let category : Option PCategory :=
    if cats.isEmpty then none else randChoice (fq.2.headD 0) cats
  let t2 := if cats.isEmpty then fq.2 else fq.2.tail
  let difficulty := ((randChoice (t2.headD 0) difficulty_levels).getD "")
  let t3 := t2.tail
  let tg := match category with
    | some c => get_tags_for_category t3 c.name
    | none => ([], t3)
  { question := fq.1, category := category, difficulty := difficulty,
    tags := tg.1, templates_used := sel.2.1, tape := tg.2 }

/-- Body of the `for _ in range(count)` loop of
`_generate_dynamic_prompts`, iterated `n` times. -/
def generate_dynamic_loop (cats : List PCategory) :
    Nat → Store → RandTape → List String → List DailyPrompt →
      List DailyPrompt × Store × RandTape
  | 0, st, t, _, created => (created, st, t)
  | n + 1, st, t, templates_used, created =>
    let dr := drawPrompt cats t templates_used
    let cr := create_prompt_if_unique st dr.question dr.category dr.difficulty dr.tags
    match cr.1 with
    | some p => generate_dynamic_loop cats n cr.2 dr.tape dr.templates_used (created ++ [p])
    | none => generate_dynamic_loop cats n cr.2 dr.tape dr.templates_used created

/-- Embedding of `PromptService._generate_dynamic_prompts`: synthesize up to `count` new
catalog rows from the template library, returning the rows actually created
(fewer when a resolved question already exists verbatim). -/
def generate_dynamic_prompts (t : RandTape) (st : Store) (count : Nat) :
    List DailyPrompt × Store × RandTape :=
  let categories := st.categories.filter fun c => c.is_active
  generate_dynamic_loop categories count st t [] []

/-! ### `generate_daily_prompts` -/

/-- Embedding of `PromptService.generate_daily_prompts`: return the existing set for
`(user, date)` if there is one; otherwise exclude the user's lifetime response
history from the active catalog, replenish the catalog when fewer than 5
candidates remain, select 5 diverse prompts, and persist a new set. -/
def generate_daily_prompts (t : RandTape) (st : Store) (u : Nat)
    (target_date : Int) : DailyPromptSetMongo × Store :=
  match findSet st u target_date with
  | some existing_set => (existing_set, st)
  | none =>
    let used := used_prompt_ids st u
    let available := availablePrompts st used
    let rep :=
      if available.length < 5 then
        let g := generate_dynamic_prompts t st 20
        (g.2.1, g.2.2)
      else (st, t)
    let st1 := rep.1
    let prompts_list := availablePrompts st1 used
    let selected := select_diverse_prompts rep.2 prompts_list 5
    let prompt_set : DailyPromptSetMongo :=
      { user_id := u
        date := target_date
        is_active := true
        prompts := selected.map toPromptData
        completed_prompt_ids := []
        completed_count := 0
        is_fully_completed := false }
    (prompt_set, { st1 with dailySets := st1.dailySets ++ [prompt_set] })

/-! ### `submit_prompt_response` -/

/-- The two `ValueError`s raised by `submit_prompt_response`, plus the
`DailyPrompt.DoesNotExist` that `DailyPrompt.objects.get` can raise. -/
inductive SubmitError
  | NotFound
  | InvalidReference
  | PromptMissing
deriving DecidableEq

/-- The dict returned by a successful `submit_prompt_response` (the response
id is omitted: it is a fresh Mongo object id). -/
structure SubmitResult where
  completed_count : Nat
  total_prompts : Nat
  is_fully_completed : Bool
  tags : List String
deriving DecidableEq

/-- Count maximal whitespace-free runs; the state records whether the scan is
inside a word. -/
def wordsAux : List Char → Bool → Nat
  | [], _ => 0
  | c :: cs, inWord =>
    if c.isWhitespace then wordsAux cs false
    else (if inWord then 0 else 1) + wordsAux cs true

/-- The count `len(response_text.split())`: the number of whitespace-separated words. -/
def word_count (text : String) : Nat :=
  wordsAux text.data false

deriving instance DecidableEq for Except

/-- Replace the first element satisfying `p` (the document that
`.first()` found and `.save()` writes back). -/
def replaceFirst (p : α → Bool) (x : α) : List α → List α
  | [] => []
  | y :: ys => if p y then x :: ys else y :: replaceFirst p x ys

/-- The `PromptResponseMongo` document built and saved by
`submit_prompt_response`. -/
def mkResponse (u prompt_id : Nat) (response_text : String) (time_spent : Nat)
    (mood : Option Int) (today : Int) : PromptResponseMongo :=
  { user_id := u
    prompt_id := prompt_id
    daily_set_date := today
    response := response_text
    word_count := word_count response_text
    time_spent_seconds := time_spent
    mood_at_response := mood
    is_active := true }

/-- The completion-field mutation of `submit_prompt_response` for a prompt
not yet completed: append the id, bump the counter, and set the full flag
when the bumped counter has reached the item count (the flag is never
cleared). -/
def completeSet (s : DailyPromptSetMongo) (prompt_id : Nat) :
    DailyPromptSetMongo :=
  { s with
    completed_prompt_ids := s.completed_prompt_ids ++ [prompt_id]
    completed_count := s.completed_count + 1
    is_fully_completed :=
      (decide (s.prompts.length ≤ s.completed_count + 1) || s.is_fully_completed) }

/-- Embedding of `PromptService.submit_prompt_response`: validate against today's set,
record the response, and update the set's completion fields when the prompt
was not already completed.  A raised `ValueError` leaves the store as it was
at the raise point — before any write. -/
def submit_prompt_response (st : Store) (u : Nat) (prompt_id : Nat)
    (response_text : String) (time_spent : Nat) (mood : Option Int)
    (today : Int) : Except SubmitError SubmitResult × Store :=
  match findSet st u today with
  | none => (.error .NotFound, st)
  | some prompt_set =>
    if !(prompt_set.prompts.any fun p => p.id == prompt_id) then
      (.error .InvalidReference, st)
    else
      match st.catalog.find? fun p => p.id == prompt_id with
      | none => (.error .PromptMissing, st)
      | some prompt =>
        let st2 := { st with responses := st.responses ++
          [mkResponse u prompt_id response_text time_spent mood today] }
        let upd :=
          if prompt_set.completed_prompt_ids.contains prompt_id then
            (prompt_set, st2)
          else
            (completeSet prompt_set prompt_id,
             { st2 with
                dailySets :=
                  replaceFirst (fun x => x.user_id == u && x.date == today)
                    (completeSet prompt_set prompt_id) st2.dailySets })
        (.ok { completed_count := upd.1.completed_count
               total_prompts := upd.1.prompts.length
               is_fully_completed := upd.1.is_fully_completed
               tags := prompt.tags }, upd.2)

/-! ### `get_user_streak` -/

/-- Whether `DailyPromptSetMongo.objects(user_id=.., date=.., is_fully_completed=True)`
is non-empty. -/
def hasFullSet (st : Store) (u : Nat) (d : Int) : Bool :=
  st.dailySets.any fun s => s.user_id == u && s.date == d && s.is_fully_completed

/-- The backward `while True` scan of `get_user_streak`, abstracted over the
per-day completeness query `f`.  One unit of fuel per iteration; the loop's
own safety break (`if streak > 365: break`) caps the iteration count at 366,
so 367 units of fuel are never exhausted (`streakLoop_fuel_irrelevant`). -/
def streakLoop (f : Int → Bool) : Nat → Nat → Int → Nat
  | 0, streak, _ => streak
  | fuel + 1, streak, d =>
    if f d then
      let s := streak + 1
      if 365 < s then s else streakLoop f fuel s (d - 1)
    else streak

/-- Embedding of `PromptService._get_streak_message`. -/
def get_streak_message (streak : Nat) : String :=
  if streak = 0 then "Start your reflection journey today!"
  else if streak = 1 then "Great start! Come back tomorrow! 🌱"
  else if streak < 7 then toString streak ++ " days strong! Keep it going! 🔥"
  else if streak < 30 then "Amazing! " ++ toString streak ++ " day streak! 🌟"
  else if streak < 100 then "Incredible! " ++ toString streak ++ " days of reflection! 🏆"
  else "Legendary! " ++ toString streak ++ " day streak! 👑"

structure StreakInfo where
  current_streak : Nat
  total_completed_days : Nat
  streak_message : String
deriving DecidableEq

/-- Embedding of `PromptService.get_user_streak` (with the caller's `date.today()` made an
explicit argument). -/
def get_user_streak (st : Store) (u : Nat) (today : Int) : StreakInfo :=
  let streak := streakLoop (hasFullSet st u) 367 0 today
  let total_completed :=
    (st.dailySets.filter fun s => s.user_id == u && s.is_fully_completed).length
  { current_streak := streak
    total_completed_days := total_completed
    streak_message := get_streak_message streak }

/-! ### Operation sequences -/

/-- One externally triggered operation against the store. -/
inductive Op
  | gen (t : RandTape) (u : Nat) (d : Int)
  | sub (u : Nat) (pid : Nat) (text : String) (ts : Nat) (mood : Option Int)
      (today : Int)

/-- The store after one operation. -/
def applyOp (st : Store) : Op → Store
  | .gen t u d => (generate_daily_prompts t st u d).2
  | .sub u pid text ts mood today =>
      (submit_prompt_response st u pid text ts mood today).2

/-- The store after a sequence of operations. -/
def runOps (st : Store) : List Op → Store
  | [] => st
  | op :: ops => runOps (applyOp st op) ops

/-! ### Invariants -/

/-- The per-group invariant of the grouping dict: every member of a group has
that group's key as its category name. -/
def GroupsCoherent (gs : List (String × List DailyPrompt)) : Prop :=
  ∀ g ∈ gs, ∀ p ∈ g.2, catName p = g.1

/-- Shape invariant of `by_category`: non-empty groups, coherent members,
pairwise distinct keys. -/
def GroupsWF (gs : List (String × List DailyPrompt)) : Prop :=
  (∀ g ∈ gs, g.2 ≠ []) ∧ GroupsCoherent gs ∧ (gs.map Prod.fst).Nodup

/-- Internal consistency of the completion tracking of one stored daily set:
the counter caches the size of the duplicate-free list of completed ids, each
completed id refers to a snapshot item, and the full flag holds exactly for a
non-empty set whose counter has reached the item count.  It holds for every
set the service creates and is preserved by every service operation. -/
def SetWF (s : DailyPromptSetMongo) : Prop :=
  s.completed_count = s.completed_prompt_ids.length ∧
  s.completed_prompt_ids.Nodup ∧
  (∀ i ∈ s.completed_prompt_ids, i ∈ s.prompts.map PromptData.id) ∧
  (s.is_fully_completed = true ↔
    (s.completed_count = s.prompts.length ∧ 0 < s.prompts.length))

instance (s : DailyPromptSetMongo) : Decidable (SetWF s) := by
  unfold SetWF
  infer_instance

/-- All stored daily sets are internally consistent. -/
def StoreWF (st : Store) : Prop := ∀ s ∈ st.dailySets, SetWF s

instance (st : Store) : Decidable (StoreWF st) := by
  unfold StoreWF
  infer_instance

/-! ### Concrete fixtures used to evaluate the theorems on closed inputs -/

def catGratitude : PCategory :=
  { name := "Gratitude", icon := "g", color := "#3B82F6", is_active := true }

def catGrowth : PCategory :=
  { name := "Growth", icon := "r", color := "#3B82F6", is_active := true }

def catWellness : PCategory :=
  { name := "Wellness", icon := "w", color := "#3B82F6", is_active := true }

/-- A curated catalog row with the given id and category. -/
def fixPrompt (i : Nat) (c : Option PCategory) : DailyPrompt :=
  { id := i, category := c, question := "q" ++ toString i, description := "",
    tags := ["t"], difficulty := "easy", is_active := true }

/-- Five active uncategorized prompts, no sets, no responses. -/
def stFive : Store :=
  { categories := []
    catalog := [fixPrompt 1 none, fixPrompt 2 none, fixPrompt 3 none,
      fixPrompt 4 none, fixPrompt 5 none]
    nextId := 6
    dailySets := []
    responses := [] }

/-- A six-prompt candidate pool spanning three categories. -/
def poolSix : List DailyPrompt :=
  [fixPrompt 1 (some catGratitude), fixPrompt 2 (some catGratitude),
   fixPrompt 3 (some catGrowth), fixPrompt 4 (some catGrowth),
   fixPrompt 5 (some catWellness), fixPrompt 6 (some catWellness)]

/-- A daily set for user 1 on day 0 with two items, one of them completed. -/
def fixSet : DailyPromptSetMongo :=
  { user_id := 1, date := 0, is_active := true
    prompts := [toPromptData (fixPrompt 1 none), toPromptData (fixPrompt 2 none)]
    completed_prompt_ids := [1], completed_count := 1, is_fully_completed := false }

/-- A response of user 1 to prompt 1 on day 0. -/
def fixResponse : PromptResponseMongo :=
  { user_id := 1, prompt_id := 1, daily_set_date := 0, response := "x",
    word_count := 1, time_spent_seconds := 0, mood_at_response := none,
    is_active := true }

/-- Store holding `fixSet` together with its catalog rows and the recorded
response to its first item. -/
def stWithSet : Store :=
  { categories := []
    catalog := [fixPrompt 1 none, fixPrompt 2 none]
    nextId := 3
    dailySets := [fixSet]
    responses := [fixResponse] }

/-- A fully completed single-item set for user 1 on day `d`. -/
def fullSet (d : Int) : DailyPromptSetMongo :=
  { user_id := 1, date := d, is_active := true
    prompts := [toPromptData (fixPrompt 1 none)]
    completed_prompt_ids := [1], completed_count := 1, is_fully_completed := true }

/-- Fully completed sets on days -3, -2, -1 and 0 and nothing earlier. -/
def stStreak : Store :=
  { categories := []
    catalog := [fixPrompt 1 none]
    nextId := 2
    dailySets := [fullSet 0, fullSet (-1), fullSet (-2), fullSet (-3)]
    responses := [fixResponse] }

/-- The completely empty store. -/
def stEmpty : Store :=
  { categories := [], catalog := [], nextId := 0, dailySets := [], responses := [] }

/-- The dict returned when user 1 resubmits the already-completed item 1 of
`fixSet`. -/
def resDup : SubmitResult :=
  { completed_count := 1, total_prompts := 2, is_fully_completed := false,
    tags := ["t"] }

/-- Store `stWithSet` after that duplicate submission: one more response record for
(user 1, item 1), everything else untouched. -/
def stDupAfter : Store :=
  { stWithSet with responses := stWithSet.responses ++
      [mkResponse 1 1 "hello" 0 none 0] }

/-- Six catalog rows; user 1 holds a fully answered single-item set on day 0
(its one item, prompt 1, has a recorded response). -/
def stAnswered : Store :=
  { categories := []
    catalog := [fixPrompt 1 none, fixPrompt 2 none, fixPrompt 3 none,
      fixPrompt 4 none, fixPrompt 5 none, fixPrompt 6 none]
    nextId := 7
    dailySets := [fullSet 0]
    responses := [fixResponse] }

/-! ## Lemmas about shuffling and grouping -/

theorem shuffleWith_perm [DecidableEq α] (rs : RandTape) (l : List α) :
    shuffleWith rs l ~ l := by
  induction rs generalizing l with
  | nil => simp [shuffleWith]
  | cons r rs ih =>
    simp only [shuffleWith]
    cases h : randChoice r l with
    | none => exact List.Perm.refl l
    | some x =>
      have hx : x ∈ l := List.get?_mem h
      exact ((ih (l.erase x)).cons x).trans (List.perm_cons_erase hx).symm

theorem keys_foldl_mem (l : List DailyPrompt) (acc : List String) (c : String) :
    (c ∈ l.foldl (fun a p => if catName p ∈ a then a else a ++ [catName p]) acc) ↔
      c ∈ acc ∨ ∃ p ∈ l, catName p = c := by
  induction l generalizing acc with
  | nil => simp
  | cons q l ih =>
    simp only [List.foldl_cons]
    rw [ih]
    by_cases h : catName q ∈ acc
    · rw [if_pos h]
      constructor
      · rintro (hc | ⟨p, hp, hcat⟩)
        · exact Or.inl hc
        · exact Or.inr ⟨p, List.mem_cons_of_mem q hp, hcat⟩
      · rintro (hc | ⟨p, hp, hcat⟩)
        · exact Or.inl hc
        · rcases List.mem_cons.1 hp with rfl | hp'
          · exact Or.inl (hcat ▸ h)
          · exact Or.inr ⟨p, hp', hcat⟩
    · rw [if_neg h]
      constructor
      · rintro (hc | ⟨p, hp, hcat⟩)
        · rcases List.mem_append.1 hc with hc | hc
          · exact Or.inl hc
          · exact Or.inr ⟨q, List.mem_cons_self q l, (List.mem_singleton.1 hc).symm⟩
        · exact Or.inr ⟨p, List.mem_cons_of_mem q hp, hcat⟩
      · rintro (hc | ⟨p, hp, hcat⟩)
        · exact Or.inl (List.mem_append.2 (Or.inl hc))
        · rcases List.mem_cons.1 hp with rfl | hp'
          · exact Or.inl (List.mem_append.2 (Or.inr (by simp [hcat])))
          · exact Or.inr ⟨p, hp', hcat⟩

theorem mem_categoryKeys (l : List DailyPrompt) (c : String) :
    c ∈ categoryKeys l ↔ ∃ p ∈ l, catName p = c := by
  unfold categoryKeys
  rw [keys_foldl_mem]
  simp

theorem keys_foldl_nodup (l : List DailyPrompt) (acc : List String)
    (h : acc.Nodup) :
    (l.foldl (fun a p => if catName p ∈ a then a else a ++ [catName p]) acc).Nodup := by
  induction l generalizing acc with
  | nil => simpa
  | cons q l ih =>
    simp only [List.foldl_cons]
    apply ih
    by_cases hq : catName q ∈ acc
    · simpa [hq]
    · simp only [if_neg hq]
      simp [List.nodup_append, h, hq]

theorem categoryKeys_nodup (l : List DailyPrompt) : (categoryKeys l).Nodup :=
  keys_foldl_nodup l [] List.nodup_nil

theorem categoryKeys_length (l : List DailyPrompt) :
    (categoryKeys l).length = (l.map catName).toFinset.card := by
  have h1 : (categoryKeys l).toFinset = (l.map catName).toFinset := by
    ext c
    simp [mem_categoryKeys, List.mem_map, eq_comm]
  rw [← List.toFinset_card_of_nodup (categoryKeys_nodup l), h1]

theorem groupByCategory_keys (l : List DailyPrompt) :
    (groupByCategory l).map Prod.fst = categoryKeys l := by
  unfold groupByCategory
  rw [List.map_map]
  have h : (Prod.fst ∘ fun c => (c, l.filter fun p => catName p = c)) = id := rfl
  rw [h, List.map_id]

theorem groupByCategory_wf (l : List DailyPrompt) : GroupsWF (groupByCategory l) := by
  refine ⟨?_, ?_, ?_⟩
  · intro g hg
    simp only [groupByCategory, List.mem_map] at hg
    obtain ⟨c, hc, rfl⟩ := hg
    obtain ⟨p, hp, hcat⟩ := (mem_categoryKeys l c).1 hc
    intro hnil
    have hnil' : l.filter (fun p => decide (catName p = c)) = [] := hnil
    have hpmem : p ∈ l.filter fun p => catName p = c := by
      simp [List.mem_filter, hp, hcat]
    rw [hnil'] at hpmem
    exact absurd hpmem (List.not_mem_nil p)
  · intro g hg p hp
    simp only [groupByCategory, List.mem_map] at hg
    obtain ⟨c, _, rfl⟩ := hg
    exact of_decide_eq_true (List.mem_filter.1 hp).2
  · rw [groupByCategory_keys]
    exact categoryKeys_nodup l

theorem flatten_filter_perm (ks : List String) (l : List DailyPrompt)
    (hn : ks.Nodup) (hc : ∀ p ∈ l, catName p ∈ ks) :
    ((ks.map fun c => l.filter fun p => catName p = c).flatten) ~ l := by
  induction ks generalizing l with
  | nil =>
    cases l with
    | nil => simp
    | cons p l => exact absurd (hc p (by simp)) (by simp)
  | cons c ks ih =>
    simp only [List.map_cons, List.flatten_cons]
    have hck : c ∉ ks := (List.nodup_cons.1 hn).1
    have hmap : ∀ c' ∈ ks, (l.filter fun p => catName p = c') =
        ((l.filter fun p => !(decide (catName p = c))).filter
          fun p => catName p = c') := by
      intro c' hc'
      have hne : c' ≠ c := fun h => hck (h ▸ hc')
      rw [List.filter_filter]
      apply List.filter_congr
      intro p _
      by_cases hp : catName p = c'
      · simp [hp, hne]
      · simp [hp]
    have hrw : (ks.map fun c' => l.filter fun p => catName p = c') =
        ks.map fun c' => (l.filter fun p => !(decide (catName p = c))).filter
          fun p => catName p = c' :=
      List.map_congr_left hmap
    rw [hrw]
    have hih := ih (l.filter fun p => !(decide (catName p = c)))
      (List.nodup_cons.1 hn).2 ?_
    · calc (l.filter fun p => catName p = c) ++
            (ks.map fun c' => (l.filter fun p => !(decide (catName p = c))).filter
              fun p => catName p = c').flatten
          ~ (l.filter fun p => catName p = c) ++
            l.filter fun p => !(decide (catName p = c)) :=
            List.Perm.append_left _ hih
        _ ~ l := List.filter_append_perm _ l
    · intro p hp
      have h1 := List.mem_filter.1 hp
      have h2 := hc p h1.1
      simp only [List.mem_cons] at h2
      rcases h2 with h2 | h2
      · exfalso
        simp [h2] at h1
      · exact h2

theorem allGroups_groupByCategory_perm (l : List DailyPrompt) :
    allGroups (groupByCategory l) ~ l := by
  unfold allGroups groupByCategory
  rw [List.map_map]
  exact flatten_filter_perm _ _ (categoryKeys_nodup l)
    (fun p hp => (mem_categoryKeys l _).2 ⟨p, hp, rfl⟩)

theorem GroupsWF_of_perm {gs gs' : List (String × List DailyPrompt)}
    (h : gs ~ gs') (hwf : GroupsWF gs) : GroupsWF gs' :=
  ⟨fun g hg => hwf.1 g (h.mem_iff.2 hg),
   fun g hg => hwf.2.1 g (h.mem_iff.2 hg),
   ((h.map Prod.fst).nodup_iff).1 hwf.2.2⟩

theorem allGroups_perm {gs gs' : List (String × List DailyPrompt)}
    (h : gs ~ gs') : allGroups gs ~ allGroups gs' :=
  (h.map Prod.snd).flatten

theorem allGroups_nil : allGroups [] = [] := rfl

theorem allGroups_cons (c : String) (gl : List DailyPrompt)
    (gs : List (String × List DailyPrompt)) :
    allGroups ((c, gl) :: gs) = gl ++ allGroups gs := rfl

theorem randChoice_pos {l : List α} (s : Nat) (h : l ≠ []) :
    ∃ x, randChoice s l = some x ∧ x ∈ l := by
  cases hch : randChoice s l with
  | none =>
    unfold randChoice at hch
    rw [List.get?_eq_none] at hch
    have hlen : 0 < l.length := List.length_pos.2 h
    exact absurd hch (by have := Nat.mod_lt s hlen; omega)
  | some x => exact ⟨x, rfl, List.get?_mem hch⟩

/-! ## First pass lemmas -/

theorem firstPass_mass (count : Nat) (gs : List (String × List DailyPrompt))
    (t : RandTape) (sel : List DailyPrompt) :
    (firstPass count gs t sel).1 ++ allGroups (firstPass count gs t sel).2.1 ~
      sel ++ allGroups gs := by
  induction gs generalizing t sel with
  | nil => simp [firstPass]
  | cons g rest ih =>
    obtain ⟨c, gl⟩ := g
    by_cases hguard : count ≤ sel.length
    · simp only [firstPass, if_pos hguard]
      exact List.Perm.refl _
    · cases hch : randChoice (t.headD 0) gl with
      | none =>
        simp only [firstPass, if_neg hguard, hch]
        exact List.Perm.refl _
      | some p =>
        have hp : p ∈ gl := List.get?_mem hch
        have hIH := ih t.tail (sel ++ [p])
        simp only [firstPass, if_neg hguard, hch]
        rw [← Multiset.coe_eq_coe] at hIH ⊢
        simp only [allGroups_cons, ← Multiset.coe_add] at hIH ⊢
        rw [Multiset.coe_singleton] at hIH
        have hgl : (gl : Multiset DailyPrompt) = {p} + ↑(gl.erase p) := by
          rw [Multiset.singleton_add, ← Multiset.coe_erase]
          exact (Multiset.cons_erase (by exact_mod_cast hp)).symm
        rw [hgl]
        have h2 := congrArg
          (fun m => m + ((gl.erase p : List DailyPrompt) : Multiset DailyPrompt)) hIH
        simp only at h2
        abel_nf at h2 ⊢
        exact h2

theorem firstPass_length (count : Nat) (gs : List (String × List DailyPrompt))
    (t : RandTape) (sel : List DailyPrompt)
    (hne : ∀ g ∈ gs, g.2 ≠ []) (hsel : sel.length ≤ count) :
    (firstPass count gs t sel).1.length = min count (sel.length + gs.length) := by
  induction gs generalizing t sel with
  | nil =>
    simp only [firstPass, List.length_nil]
    omega
  | cons g rest ih =>
    obtain ⟨c, gl⟩ := g
    by_cases hguard : count ≤ sel.length
    · simp only [firstPass, if_pos hguard, List.length_cons]
      omega
    · obtain ⟨p, hch, hp⟩ := randChoice_pos (t.headD 0) (hne (c, gl) (List.mem_cons_self _ _))
      simp only [firstPass, if_neg hguard, hch]
      have hIH := ih t.tail (sel ++ [p]) (fun g' hg' => hne g' (List.mem_cons_of_mem _ hg'))
        (by simp; omega)
      simp only [List.length_append, List.length_singleton] at hIH
      simp only [List.length_cons]
      omega

theorem firstPass_new (count : Nat) (gs : List (String × List DailyPrompt))
    (t : RandTape) (sel : List DailyPrompt) (hcoh : GroupsCoherent gs) :
    ∃ goal, (firstPass count gs t sel).1 = sel ++ goal ∧
      List.Sublist (goal.map catName) (gs.map Prod.fst) := by
  induction gs generalizing t sel with
  | nil => exact ⟨[], by simp [firstPass], by simp⟩
  | cons g rest ih =>
    obtain ⟨c, gl⟩ := g
    by_cases hguard : count ≤ sel.length
    · exact ⟨[], by simp only [firstPass, if_pos hguard]; simp, by simp⟩
    · cases hch : randChoice (t.headD 0) gl with
      | none =>
        exact ⟨[], by simp only [firstPass, if_neg hguard, hch]; simp, by simp⟩
      | some p =>
        have hp : p ∈ gl := List.get?_mem hch
        have hcatp : catName p = c := hcoh (c, gl) (List.mem_cons_self _ _) p hp
        obtain ⟨new, h1, h2⟩ := ih t.tail (sel ++ [p])
          (fun g' hg' => hcoh g' (List.mem_cons_of_mem _ hg'))
        refine ⟨p :: new, ?_, ?_⟩
        · simp only [firstPass, if_neg hguard, hch]
          rw [h1]
          simp
        · simpa [hcatp] using List.Sublist.cons₂ c h2

theorem firstPass_groups_keys (count : Nat) (gs : List (String × List DailyPrompt))
    (t : RandTape) (sel : List DailyPrompt) :
    (firstPass count gs t sel).2.1.map Prod.fst = gs.map Prod.fst := by
  induction gs generalizing t sel with
  | nil => simp [firstPass]
  | cons g rest ih =>
    obtain ⟨c, gl⟩ := g
    by_cases hguard : count ≤ sel.length
    · simp only [firstPass, if_pos hguard]
    · cases hch : randChoice (t.headD 0) gl with
      | none => simp only [firstPass, if_neg hguard, hch]
      | some p =>
        simp only [firstPass, if_neg hguard, hch, List.map_cons]
        rw [ih]

theorem firstPass_groups_coherent (count : Nat)
    (gs : List (String × List DailyPrompt)) (t : RandTape)
    (sel : List DailyPrompt) (hcoh : GroupsCoherent gs) :
    GroupsCoherent (firstPass count gs t sel).2.1 := by
  induction gs generalizing t sel with
  | nil =>
    intro g hg
    simp [firstPass] at hg
  | cons g rest ih =>
    obtain ⟨c, gl⟩ := g
    by_cases hguard : count ≤ sel.length
    · simp only [firstPass, if_pos hguard]
      exact hcoh
    · cases hch : randChoice (t.headD 0) gl with
      | none =>
        simp only [firstPass, if_neg hguard, hch]
        exact hcoh
      | some p =>
        simp only [firstPass, if_neg hguard, hch]
        intro g' hg' q hq
        rcases List.mem_cons.1 hg' with rfl | hg'
        · exact hcoh (c, gl) (List.mem_cons_self _ _) q
            (List.mem_of_mem_erase hq)
        · exact ih t.tail (sel ++ [p])
            (fun g'' hg'' => hcoh g'' (List.mem_cons_of_mem _ hg'')) g' hg' q hq

/-! ## Second pass lemmas -/

theorem eraseFromGroups_keys (gs : List (String × List DailyPrompt)) (c : String)
    (p : DailyPrompt) :
    (eraseFromGroups gs c p).map Prod.fst = gs.map Prod.fst := by
  unfold eraseFromGroups
  rw [List.map_map]
  apply List.map_congr_left
  intro g _
  by_cases h : g.1 = c <;> simp [h]

theorem eraseFromGroups_coherent (gs : List (String × List DailyPrompt))
    (c : String) (p : DailyPrompt) (h : GroupsCoherent gs) :
    GroupsCoherent (eraseFromGroups gs c p) := by
  intro g hg q hq
  unfold eraseFromGroups at hg
  simp only [List.mem_map] at hg
  obtain ⟨g0, hg0, rfl⟩ := hg
  by_cases hc : g0.1 = c
  · rw [if_pos hc] at hq ⊢
    exact h g0 hg0 q (List.mem_of_mem_erase hq)
  · rw [if_neg hc] at hq ⊢
    exact h g0 hg0 q hq

theorem eraseFromGroups_of_not_mem (gs : List (String × List DailyPrompt))
    (c : String) (p : DailyPrompt) (h : ∀ g ∈ gs, p ∉ g.2) :
    allGroups (eraseFromGroups gs c p) = allGroups gs := by
  unfold allGroups eraseFromGroups
  rw [List.map_map]
  congr 1
  apply List.map_congr_left
  intro g hg
  show (if g.1 = c then (g.1, g.2.erase p) else g).2 = g.2
  by_cases hc : g.1 = c
  · rw [if_pos hc]
    exact List.erase_of_not_mem (h g hg)
  · rw [if_neg hc]

theorem eraseFromGroups_mass (gs : List (String × List DailyPrompt))
    (p : DailyPrompt) (hcoh : GroupsCoherent gs)
    (hkeys : (gs.map Prod.fst).Nodup) (hp : p ∈ allGroups gs) :
    p :: allGroups (eraseFromGroups gs (catName p) p) ~ allGroups gs := by
  induction gs with
  | nil => simp [allGroups] at hp
  | cons g rest ih =>
    obtain ⟨c0, g0⟩ := g
    rw [allGroups_cons] at hp
    have hcoh0 : ∀ q ∈ g0, catName q = c0 :=
      fun q hq => hcoh (c0, g0) (List.mem_cons_self _ _) q hq
    have hcohr : GroupsCoherent rest :=
      fun g' hg' => hcoh g' (List.mem_cons_of_mem _ hg')
    have hkeysr : (rest.map Prod.fst).Nodup := (List.nodup_cons.1 hkeys).2
    have hc0r : c0 ∉ rest.map Prod.fst := (List.nodup_cons.1 hkeys).1
    by_cases hpg : p ∈ g0
    · have hcatp : catName p = c0 := hcoh0 p hpg
      have hrest : ∀ g' ∈ rest, p ∉ g'.2 := by
        intro g' hg' hmem
        exact hc0r (by
          have hpg' : catName p = g'.1 := hcohr g' hg' p hmem
          rw [hcatp.symm.trans hpg']
          exact List.mem_map_of_mem Prod.fst hg')
      unfold eraseFromGroups
      simp only [List.map_cons]
      rw [hcatp, if_pos rfl]
      have hrw : (rest.map fun g =>
          if g.1 = c0 then (g.1, g.2.erase p) else g) = eraseFromGroups rest c0 p := rfl
      rw [allGroups_cons, hrw, eraseFromGroups_of_not_mem rest c0 p hrest]
      have h1 : p :: (g0.erase p ++ allGroups rest) =
          (p :: g0.erase p) ++ allGroups rest := rfl
      rw [h1, allGroups_cons]
      exact List.Perm.append_right (allGroups rest) (List.perm_cons_erase hpg).symm
    · have hpr : p ∈ allGroups rest := by
        rcases List.mem_append.1 hp with h | h
        · exact absurd h hpg
        · exact h
      have hIH := ih hcohr hkeysr hpr
      unfold eraseFromGroups
      simp only [List.map_cons]
      have hhead : (if (c0, g0).1 = catName p then ((c0, g0).1, (c0, g0).2.erase p)
          else (c0, g0)) = (c0, g0) := by
        by_cases hc : c0 = catName p
        · simp [hc, List.erase_of_not_mem hpg]
        · simp [hc]
      rw [hhead, allGroups_cons, allGroups_cons]
      have hrw : (rest.map fun g =>
          if g.1 = catName p then (g.1, g.2.erase p) else g) =
          eraseFromGroups rest (catName p) p := rfl
      rw [hrw]
      calc p :: (g0 ++ allGroups (eraseFromGroups rest (catName p) p))
          ~ g0 ++ p :: allGroups (eraseFromGroups rest (catName p) p) :=
            (List.perm_middle).symm
        _ ~ g0 ++ allGroups rest := List.Perm.append_left g0 hIH

theorem secondPass_prefix (count fuel : Nat)
    (gs : List (String × List DailyPrompt)) (t : RandTape)
    (sel : List DailyPrompt) :
    ∃ ex, (secondPass count fuel gs t sel).1 = sel ++ ex := by
  induction fuel generalizing gs t sel with
  | zero => exact ⟨[], by simp [secondPass]⟩
  | succ fuel ih =>
    by_cases hguard : count ≤ sel.length
    · exact ⟨[], by simp [secondPass, hguard]⟩
    · cases hch : randChoice (t.headD 0) (allGroups gs) with
      | none => exact ⟨[], by simp only [secondPass, if_neg hguard, hch]; simp⟩
      | some p =>
        obtain ⟨ex, hex⟩ := ih (eraseFromGroups gs (catName p) p) t.tail (sel ++ [p])
        refine ⟨p :: ex, ?_⟩
        simp only [secondPass, if_neg hguard, hch]
        rw [hex]
        simp

theorem secondPass_mass (count fuel : Nat)
    (gs : List (String × List DailyPrompt)) (t : RandTape)
    (sel : List DailyPrompt) (hcoh : GroupsCoherent gs)
    (hkeys : (gs.map Prod.fst).Nodup) :
    ((secondPass count fuel gs t sel).1 : Multiset DailyPrompt) ≤
      ↑sel + ↑(allGroups gs) := by
  induction fuel generalizing gs t sel with
  | zero =>
    simp only [secondPass]
    exact Multiset.le_add_right _ _
  | succ fuel ih =>
    by_cases hguard : count ≤ sel.length
    · simp only [secondPass, if_pos hguard]
      exact Multiset.le_add_right _ _
    · cases hch : randChoice (t.headD 0) (allGroups gs) with
      | none =>
        simp only [secondPass, if_neg hguard, hch]
        exact Multiset.le_add_right _ _
      | some p =>
        have hp : p ∈ allGroups gs := List.get?_mem hch
        simp only [secondPass, if_neg hguard, hch]
        have hIH := ih (eraseFromGroups gs (catName p) p) t.tail (sel ++ [p])
          (eraseFromGroups_coherent gs (catName p) p hcoh)
          (by rw [eraseFromGroups_keys]; exact hkeys)
        refine hIH.trans (le_of_eq ?_)
        have hmass := eraseFromGroups_mass gs p hcoh hkeys hp
        rw [← Multiset.coe_eq_coe] at hmass
        simp only [← Multiset.coe_add]
        rw [Multiset.coe_singleton, add_assoc, Multiset.singleton_add,
          Multiset.cons_coe, hmass]

theorem secondPass_length (count fuel : Nat)
    (gs : List (String × List DailyPrompt)) (t : RandTape)
    (sel : List DailyPrompt) (hcoh : GroupsCoherent gs)
    (hkeys : (gs.map Prod.fst).Nodup) (hsel : sel.length ≤ count)
    (hfuel : count - sel.length ≤ fuel) :
    (secondPass count fuel gs t sel).1.length =
      min count (sel.length + (allGroups gs).length) := by
  induction fuel generalizing gs t sel with
  | zero =>
    simp only [secondPass]
    omega
  | succ fuel ih =>
    by_cases hguard : count ≤ sel.length
    · simp only [secondPass, if_pos hguard]
      omega
    · cases hch : randChoice (t.headD 0) (allGroups gs) with
      | none =>
        have hempty : allGroups gs = [] := by
          unfold randChoice at hch
          rw [List.get?_eq_none] at hch
          cases hemp : allGroups gs with
          | nil => rfl
          | cons x xs =>
            rw [hemp] at hch
            have hpos : 0 < (x :: xs).length := by simp
            have := Nat.mod_lt (t.headD 0) hpos
            omega
        simp only [secondPass, if_neg hguard, hch]
        rw [hempty]
        simp only [List.length_nil]
        omega
      | some p =>
        have hp : p ∈ allGroups gs := List.get?_mem hch
        simp only [secondPass, if_neg hguard, hch]
        have hmass := eraseFromGroups_mass gs p hcoh hkeys hp
        have hlen := hmass.length_eq
        simp only [List.length_cons] at hlen
        have hIH := ih (eraseFromGroups gs (catName p) p) t.tail (sel ++ [p])
          (eraseFromGroups_coherent gs (catName p) p hcoh)
          (by rw [eraseFromGroups_keys]; exact hkeys)
          (by simp; omega) (by simp; omega)
        simp only [List.length_append, List.length_singleton] at hIH
        omega

/-! ## Properties of `select_diverse_prompts` -/

theorem select_mass (t : RandTape) (l : List DailyPrompt) (k : Nat) :
    ((select_diverse_prompts t l k : List DailyPrompt) : Multiset DailyPrompt) ≤ ↑l := by
  by_cases h : l.length ≤ k
  · simp only [select_diverse_prompts, if_pos h]
    exact le_refl _
  · simp only [select_diverse_prompts, if_neg h]
    set gs0 := groupByCategory l with hgs0
    set sh := shuffleWith (t.take gs0.length) gs0 with hsh
    set fp := firstPass k sh (t.drop gs0.length) [] with hfp
    set sp := secondPass k k fp.2.1 fp.2.2 fp.1 with hsp
    have hperm : sh ~ gs0 := shuffleWith_perm _ _
    have hwf : GroupsWF sh := GroupsWF_of_perm hperm.symm (groupByCategory_wf l)
    have hshuf2 : shuffleWith (sp.2.take sp.1.length) sp.1 ~ sp.1 := shuffleWith_perm _ _
    have hmass2 : (sp.1 : Multiset DailyPrompt) ≤ ↑fp.1 + ↑(allGroups fp.2.1) := by
      rw [hsp]
      exact secondPass_mass k k fp.2.1 fp.2.2 fp.1
        (firstPass_groups_coherent k sh (t.drop gs0.length) [] hwf.2.1)
        (by rw [hfp, firstPass_groups_keys]; exact hwf.2.2)
    have hmass1 : (fp.1 : Multiset DailyPrompt) + ↑(allGroups fp.2.1) = ↑(allGroups sh) := by
      have := firstPass_mass k sh (t.drop gs0.length) []
      rw [← Multiset.coe_eq_coe] at this
      simp only [← Multiset.coe_add] at this
      simpa [hfp] using this
    have hl : ((allGroups sh : List DailyPrompt) : Multiset DailyPrompt) = ↑l := by
      rw [Multiset.coe_eq_coe]
      exact (allGroups_perm hperm).trans (allGroups_groupByCategory_perm l)
    calc ((shuffleWith (sp.2.take sp.1.length) sp.1 : List DailyPrompt) : Multiset DailyPrompt)
        = ↑sp.1 := Multiset.coe_eq_coe.2 hshuf2
      _ ≤ ↑fp.1 + ↑(allGroups fp.2.1) := hmass2
      _ = ↑(allGroups sh) := hmass1
      _ = ↑l := hl

theorem select_subset (t : RandTape) (l : List DailyPrompt) (k : Nat) :
    ∀ p ∈ select_diverse_prompts t l k, p ∈ l := by
  intro p hp
  have := Multiset.subset_of_le (select_mass t l k)
  exact Multiset.mem_coe.1 (this (Multiset.mem_coe.2 hp))

theorem select_nodup (t : RandTape) (l : List DailyPrompt) (k : Nat)
    (h : l.Nodup) : (select_diverse_prompts t l k).Nodup :=
  Multiset.coe_nodup.1
    (Multiset.nodup_of_le (select_mass t l k) (Multiset.coe_nodup.2 h))

theorem select_length (t : RandTape) (l : List DailyPrompt) (k : Nat) :
    (select_diverse_prompts t l k).length = min l.length k := by
  by_cases h : l.length ≤ k
  · simp only [select_diverse_prompts, if_pos h]
    omega
  · simp only [select_diverse_prompts, if_neg h]
    set gs0 := groupByCategory l with hgs0
    set sh := shuffleWith (t.take gs0.length) gs0 with hsh
    set fp := firstPass k sh (t.drop gs0.length) [] with hfp
    set sp := secondPass k k fp.2.1 fp.2.2 fp.1 with hsp
    have hperm : sh ~ gs0 := shuffleWith_perm _ _
    have hwf : GroupsWF sh := GroupsWF_of_perm hperm.symm (groupByCategory_wf l)
    have hfp_len : fp.1.length = min k sh.length := by
      rw [hfp]
      have := firstPass_length k sh (t.drop gs0.length) [] hwf.1 (by simp)
      simpa using this
    have hmass1 : fp.1.length + (allGroups fp.2.1).length = l.length := by
      have h1 := (firstPass_mass k sh (t.drop gs0.length) []).length_eq
      simp only [List.length_append, List.length_nil, hfp] at h1 ⊢
      have h2 : (allGroups sh).length = l.length :=
        ((allGroups_perm hperm).trans (allGroups_groupByCategory_perm l)).length_eq
      omega
    have hsp_len : sp.1.length = min k (fp.1.length + (allGroups fp.2.1).length) := by
      rw [hsp]
      exact secondPass_length k k fp.2.1 fp.2.2 fp.1
        (firstPass_groups_coherent k sh (t.drop gs0.length) [] hwf.2.1)
        (by rw [hfp, firstPass_groups_keys]; exact hwf.2.2)
        (by omega) (by omega)
    have hshuf2 : (shuffleWith (sp.2.take sp.1.length) sp.1).length = sp.1.length :=
      (shuffleWith_perm _ _).length_eq
    rw [hshuf2, hsp_len, hmass1]
    omega

theorem select_span (t : RandTape) (l : List DailyPrompt) (k : Nat) :
    min k ((l.map catName).toFinset.card) ≤
      (((select_diverse_prompts t l k).map catName).toFinset.card) := by
  by_cases h : l.length ≤ k
  · simp only [select_diverse_prompts, if_pos h]
    exact Nat.min_le_right _ _
  · simp only [select_diverse_prompts, if_neg h]
    set gs0 := groupByCategory l with hgs0
    set sh := shuffleWith (t.take gs0.length) gs0 with hsh
    set fp := firstPass k sh (t.drop gs0.length) [] with hfp
    set sp := secondPass k k fp.2.1 fp.2.2 fp.1 with hsp
    have hperm : sh ~ gs0 := shuffleWith_perm _ _
    have hwf : GroupsWF sh := GroupsWF_of_perm hperm.symm (groupByCategory_wf l)
    obtain ⟨new, hnew1, hnew2⟩ := firstPass_new k sh (t.drop gs0.length) [] hwf.2.1
    have hfp1 : fp.1 = new := by rw [hfp, hnew1]; simp
    have hnodup : (new.map catName).Nodup := hnew2.nodup hwf.2.2
    have hfp_len : fp.1.length = min k sh.length := by
      rw [hfp]
      have := firstPass_length k sh (t.drop gs0.length) [] hwf.1 (by simp)
      simpa using this
    have hC : gs0.length = (l.map catName).toFinset.card := by
      rw [hgs0]
      unfold groupByCategory
      rw [List.length_map]
      exact categoryKeys_length l
    obtain ⟨ex, hex⟩ := secondPass_prefix k k fp.2.1 fp.2.2 fp.1
    have hresult : shuffleWith (sp.2.take sp.1.length) sp.1 ~ fp.1 ++ ex := by
      rw [← hex, ← hsp]
      exact shuffleWith_perm _ _
    have hts : ((shuffleWith (sp.2.take sp.1.length) sp.1).map catName).toFinset =
        ((fp.1 ++ ex).map catName).toFinset :=
      List.toFinset_eq_of_perm _ _ (hresult.map catName)
    rw [hts]
    have hsub : ((fp.1.map catName).toFinset : Finset String) ⊆
        ((fp.1 ++ ex).map catName).toFinset := by
      intro a ha
      simp only [List.mem_toFinset, List.map_append, List.mem_append] at ha ⊢
      exact Or.inl (by simpa using ha)
    have hcard : (fp.1.map catName).toFinset.card = fp.1.length := by
      rw [hfp1, List.toFinset_card_of_nodup hnodup, List.length_map]
    have hshlen : sh.length = gs0.length := hperm.length_eq
    calc min k ((l.map catName).toFinset.card)
        = fp.1.length := by rw [hfp_len, hshlen, hC]
      _ = (fp.1.map catName).toFinset.card := hcard.symm
      _ ≤ ((fp.1 ++ ex).map catName).toFinset.card := Finset.card_le_card hsub

/-! ## Streak loop lemmas -/

theorem streakLoop_run (f : Int → Bool) (n : Nat) :
    ∀ (fuel streak : Nat) (d : Int), (∀ i < n, f (d - (i : Int)) = true) →
      f (d - (n : Int)) = false → streak + n ≤ 365 → n + 1 ≤ fuel →
      streakLoop f fuel streak d = streak + n := by
  induction n with
  | zero =>
    intro fuel streak d hrun hstop hb hf
    cases fuel with
    | zero => omega
    | succ fuel =>
      have hd : f d = false := by simpa using hstop
      simp [streakLoop, hd]
  | succ n ih =>
    intro fuel streak d hrun hstop hb hf
    cases fuel with
    | zero => omega
    | succ fuel =>
      have hd : f d = true := by simpa using hrun 0 (by omega)
      have hslt : ¬ (365 < streak + 1) := by omega
      simp only [streakLoop, hd, if_true, if_neg hslt]
      have hrun' : ∀ i < n, f (d - 1 - (i : Int)) = true := by
        intro i hi
        have h1 := hrun (i + 1) (by omega)
        have harith : d - ((i : Nat) + 1 : Nat) = d - 1 - (i : Int) := by
          push_cast
          ring
        rw [harith] at h1
        exact h1
      have hstop' : f (d - 1 - (n : Int)) = false := by
        have harith : d - ((n : Nat) + 1 : Nat) = d - 1 - (n : Int) := by
          push_cast
          ring
        rw [harith] at hstop
        exact hstop
      have := ih fuel (streak + 1) (d - 1) hrun' hstop' (by omega) (by omega)
      rw [this]
      omega

theorem streakLoop_le (f : Int → Bool) (fuel : Nat) :
    ∀ (streak : Nat) (d : Int), streak ≤ 365 → streakLoop f fuel streak d ≤ 366 := by
  induction fuel with
  | zero =>
    intro streak d h
    simp only [streakLoop]
    omega
  | succ fuel ih =>
    intro streak d h
    simp only [streakLoop]
    by_cases hf : f d = true
    · rw [if_pos hf]
      by_cases hs : 365 < streak + 1
      · rw [if_pos hs]
        omega
      · rw [if_neg hs]
        exact ih (streak + 1) (d - 1) (by omega)
    · rw [if_neg hf]
      omega

theorem streakLoop_saturates (fuel : Nat) :
    ∀ (streak : Nat) (d : Int), streak ≤ 365 → 366 - streak ≤ fuel →
      streakLoop (fun _ => true) fuel streak d = 366 := by
  induction fuel with
  | zero =>
    intro streak d hs hf
    omega
  | succ fuel ih =>
    intro streak d hs hf
    simp only [streakLoop, if_true]
    by_cases h365 : 365 < streak + 1
    · rw [if_pos h365]
      omega
    · rw [if_neg h365]
      exact ih (streak + 1) (d - 1) (by omega) (by omega)

theorem streakLoop_fuel_irrelevant (f : Int → Bool) (fuel : Nat) :
    ∀ (fuel' streak : Nat) (d : Int), streak ≤ 365 →
      366 - streak ≤ fuel → 366 - streak ≤ fuel' →
      streakLoop f fuel streak d = streakLoop f fuel' streak d := by
  induction fuel with
  | zero =>
    intro fuel' streak d hs h1 h2
    omega
  | succ fuel ih =>
    intro fuel' streak d hs h1 h2
    cases fuel' with
    | zero => omega
    | succ fuel' =>
      simp only [streakLoop]
      by_cases hf : f d = true
      · rw [if_pos hf, if_pos hf]
        by_cases hsucc : 365 < streak + 1
        · rw [if_pos hsucc, if_pos hsucc]
        · rw [if_neg hsucc, if_neg hsucc]
          exact ih fuel' (streak + 1) (d - 1) (by omega) (by omega) (by omega)
      · rw [if_neg hf, if_neg hf]

/-! ## Structure of freshly generated sets -/

theorem mem_used_prompt_ids (st : Store) (u : Nat) (r : PromptResponseMongo)
    (hr : r ∈ st.responses) (hru : r.user_id = u) :
    r.prompt_id ∈ used_prompt_ids st u := by
  unfold used_prompt_ids
  exact List.mem_map.2 ⟨r, List.mem_filter.2 ⟨hr, by simp [hru]⟩, rfl⟩

/-- Every snapshot item of a freshly created daily set comes from an active
catalog row (of the possibly replenished catalog) whose id has no recorded
response by the user. -/
theorem generate_fresh_mem (t : RandTape) (st : Store) (u : Nat) (d : Int)
    (h : findSet st u d = none) :
    ∀ p ∈ (generate_daily_prompts t st u d).1.prompts,
      ∃ q, q ∈ (generate_daily_prompts t st u d).2.catalog ∧
        p = toPromptData q ∧ q.is_active = true ∧
        q.id ∉ used_prompt_ids st u := by
  intro p hp
  simp only [generate_daily_prompts, h] at hp ⊢
  obtain ⟨q, hq, rfl⟩ := List.mem_map.1 hp
  have hq' := select_subset _ _ _ q hq
  have hfilter := List.mem_filter.1 hq'
  have hbool : (q.is_active && !((used_prompt_ids st u).contains q.id)) = true :=
    hfilter.2
  have hsplit : q.is_active = true ∧
      (!((used_prompt_ids st u).contains q.id)) = true := by
    simpa using hbool
  obtain ⟨hact, hcon⟩ := hsplit
  refine ⟨q, hfilter.1, rfl, hact, ?_⟩
  intro hmem
  rw [Bool.not_eq_true'] at hcon
  rw [(by simpa using hmem : (used_prompt_ids st u).contains q.id = true)] at hcon
  exact absurd hcon (by simp)

/-! ## Replenisher loop invariant -/

theorem generate_dynamic_loop_spec (cats : List PCategory) (n : Nat) :
    ∀ (st : Store) (t : RandTape) (used : List String)
      (created : List DailyPrompt),
      ∃ newp,
        (generate_dynamic_loop cats n st t used created).1 = created ++ newp ∧
        (generate_dynamic_loop cats n st t used created).2.1.catalog =
          st.catalog ++ newp ∧
        newp.length ≤ n ∧
        (newp.map DailyPrompt.question).Nodup ∧
        (∀ q ∈ newp.map DailyPrompt.question, ∀ p ∈ st.catalog,
          p.question ≠ q) := by
  induction n with
  | zero =>
    intro st t used created
    exact ⟨[], by simp [generate_dynamic_loop], by simp [generate_dynamic_loop],
      by simp, by simp, by simp⟩
  | succ n ih =>
    intro st t used created
    by_cases hany :
        (st.catalog.any fun p => p.question = (drawPrompt cats t used).question) = true
    · have hloop : generate_dynamic_loop cats (n + 1) st t used created =
          generate_dynamic_loop cats n st (drawPrompt cats t used).tape
            (drawPrompt cats t used).templates_used created := by
        simp only [generate_dynamic_loop, create_prompt_if_unique, hany, if_true]
      rw [hloop]
      obtain ⟨newp, h1, h2, h3, h4, h5⟩ :=
        ih st (drawPrompt cats t used).tape (drawPrompt cats t used).templates_used
          created
      exact ⟨newp, h1, h2, by omega, h4, h5⟩
    · have hfresh : ∀ pc ∈ st.catalog,
          ¬ pc.question = (drawPrompt cats t used).question := by
        simpa using hany
      have hloop : generate_dynamic_loop cats (n + 1) st t used created =
          generate_dynamic_loop cats n
            { st with
                catalog := st.catalog ++
                  [{ id := st.nextId
                     category := (drawPrompt cats t used).category
                     question := (drawPrompt cats t used).question
                     description := "Dynamic prompt - generated for continuous variety"
                     tags := (drawPrompt cats t used).tags
                     difficulty := (drawPrompt cats t used).difficulty
                     is_active := true }]
                nextId := st.nextId + 1 }
            (drawPrompt cats t used).tape (drawPrompt cats t used).templates_used
            (created ++
              [{ id := st.nextId
                 category := (drawPrompt cats t used).category
                 question := (drawPrompt cats t used).question
                 description := "Dynamic prompt - generated for continuous variety"
                 tags := (drawPrompt cats t used).tags
                 difficulty := (drawPrompt cats t used).difficulty
                 is_active := true }]) := by
        simp only [generate_dynamic_loop, create_prompt_if_unique, if_neg hany]
      rw [hloop]
      obtain ⟨newp, h1, h2, h3, h4, h5⟩ := ih _ _ _ _
      refine ⟨{ id := st.nextId
                category := (drawPrompt cats t used).category
                question := (drawPrompt cats t used).question
                description := "Dynamic prompt - generated for continuous variety"
                tags := (drawPrompt cats t used).tags
                difficulty := (drawPrompt cats t used).difficulty
                is_active := true } :: newp, ?_, ?_, ?_, ?_, ?_⟩
      · rw [h1]
        simp
      · rw [h2]
        simp
      · simp only [List.length_cons]
        omega
      · rw [List.map_cons, List.nodup_cons]
        refine ⟨?_, h4⟩
        intro hqmem
        exact (h5 _ hqmem _ (by simp)) rfl
      · intro q hq pc hpc
        rw [List.map_cons, List.mem_cons] at hq
        rcases hq with rfl | hq
        · exact fun heq => hfresh pc hpc heq
        · exact h5 q hq pc (List.mem_append_left _ hpc)

/-! ## Submission and well-formedness lemmas -/

theorem mem_of_any_id (ps : List PromptData) (pid : Nat)
    (h : (ps.any fun p => p.id == pid) = true) : pid ∈ ps.map PromptData.id := by
  obtain ⟨p, hp, hpe⟩ := List.any_eq_true.1 h
  exact List.mem_map.2 ⟨p, hp, by simpa using hpe⟩

theorem nodup_subset_length {l l' : List Nat} (h : l.Nodup)
    (hs : ∀ a ∈ l, a ∈ l') : l.length ≤ l'.length := by
  calc l.length = l.toFinset.card := (List.toFinset_card_of_nodup h).symm
    _ ≤ l'.toFinset.card :=
        Finset.card_le_card
          (fun a ha => List.mem_toFinset.2 (hs a (List.mem_toFinset.1 ha)))
    _ ≤ l'.length := List.toFinset_card_le l'

/-- Any set with empty completion tracking and a cleared flag — exactly how
`generate_daily_prompts` initializes one — is well formed. -/
theorem setWF_of_fields (s : DailyPromptSetMongo)
    (h1 : s.completed_prompt_ids = []) (h2 : s.completed_count = 0)
    (h3 : s.is_fully_completed = false) : SetWF s := by
  refine ⟨by rw [h1, h2]; rfl, by rw [h1]; exact List.nodup_nil,
    by rw [h1]; simp, ?_⟩
  rw [h3, h2]
  constructor
  · intro h
    exact absurd h (by simp)
  · rintro ⟨hl, hg⟩
    omega

theorem completeSet_wf (s : DailyPromptSetMongo) (pid : Nat) (hwf : SetWF s)
    (hmem : pid ∈ s.prompts.map PromptData.id)
    (hnot : pid ∉ s.completed_prompt_ids) : SetWF (completeSet s pid) := by
  obtain ⟨hcount, hnodup, hsub, hflag⟩ := hwf
  have hlen : 0 < s.prompts.length := by
    have := List.length_pos.2 (List.ne_nil_of_mem hmem)
    simpa using this
  have hbound : s.completed_count + 1 ≤ s.prompts.length := by
    have h1 : (s.completed_prompt_ids ++ [pid]).length ≤
        (s.prompts.map PromptData.id).length := by
      apply nodup_subset_length
      · simp [List.nodup_append, hnodup, hnot]
      · intro a ha
        rcases List.mem_append.1 ha with ha | ha
        · exact hsub a ha
        · rw [List.mem_singleton.1 ha]
          exact hmem
    simp only [List.length_append, List.length_singleton, List.length_map] at h1
    omega
  refine ⟨?_, ?_, ?_, ?_⟩
  · show s.completed_count + 1 = (s.completed_prompt_ids ++ [pid]).length
    simp [hcount]
  · show (s.completed_prompt_ids ++ [pid]).Nodup
    simp [List.nodup_append, hnodup, hnot]
  · intro i hi
    rcases List.mem_append.1 hi with hi | hi
    · exact hsub i hi
    · rw [List.mem_singleton.1 hi]
      exact hmem
  · show ((decide (s.prompts.length ≤ s.completed_count + 1) ||
        s.is_fully_completed) = true ↔ _)
    constructor
    · intro h
      rcases Bool.or_eq_true_iff.1 h with h | h
      · have := of_decide_eq_true h
        exact ⟨by simp only [completeSet]; omega, by simpa using hlen⟩
      · obtain ⟨h1, _⟩ := hflag.1 h
        exfalso
        omega
    · rintro ⟨h1, _⟩
      apply Bool.or_eq_true_iff.2
      left
      simp only [completeSet] at h1
      exact decide_eq_true (by omega)

theorem find?_append_of_some {α} (p : α → Bool) (l l' : List α) (s : α)
    (h : l.find? p = some s) : (l ++ l').find? p = some s := by
  induction l with
  | nil => simp [List.find?] at h
  | cons y ys ih =>
    by_cases hy : p y = true
    · rw [List.find?_cons_of_pos _ hy] at h
      rw [List.cons_append, List.find?_cons_of_pos _ hy]
      exact h
    · rw [List.find?_cons_of_neg _ hy] at h
      rw [List.cons_append, List.find?_cons_of_neg _ hy]
      exact ih h

theorem mem_replaceFirst {α} (p : α → Bool) (x : α) (l : List α) :
    ∀ y ∈ replaceFirst p x l, y ∈ l ∨ y = x := by
  induction l with
  | nil => simp [replaceFirst]
  | cons z zs ih =>
    intro y hy
    unfold replaceFirst at hy
    by_cases hz : p z = true
    · rw [if_pos hz] at hy
      rcases List.mem_cons.1 hy with rfl | hy
      · exact Or.inr rfl
      · exact Or.inl (List.mem_cons_of_mem z hy)
    · rw [if_neg hz] at hy
      rcases List.mem_cons.1 hy with rfl | hy
      · exact Or.inl (List.mem_cons_self _ _)
      · rcases ih y hy with h | h
        · exact Or.inl (List.mem_cons_of_mem z h)
        · exact Or.inr h

theorem find?_replaceFirst_self {α} (p : α → Bool) (x : α) (l : List α)
    (hx : p x = true) (s0 : α) (h : l.find? p = some s0) :
    (replaceFirst p x l).find? p = some x := by
  induction l with
  | nil => simp [List.find?] at h
  | cons y ys ih =>
    unfold replaceFirst
    by_cases hy : p y = true
    · rw [if_pos hy, List.find?_cons_of_pos _ hx]
    · rw [if_neg hy, List.find?_cons_of_neg _ hy]
      rw [List.find?_cons_of_neg _ hy] at h
      exact ih h

theorem find?_replaceFirst {α} (p q : α → Bool) (x : α) (l : List α) (s0 : α)
    (hfp : l.find? p = some s0) (hq : q x = q s0) :
    ∀ s, l.find? q = some s →
      ∃ s', (replaceFirst p x l).find? q = some s' ∧
        (s' = s ∨ (s = s0 ∧ s' = x)) := by
  induction l with
  | nil => intro s hs; simp [List.find?] at hs
  | cons y ys ih =>
    intro s hs
    by_cases hpy : p y = true
    · have hs0 : s0 = y := by
        rw [List.find?_cons_of_pos _ hpy] at hfp
        injection hfp with hfp
        exact hfp.symm
      have hrf : replaceFirst p x (y :: ys) = x :: ys := by
        conv_lhs => rw [replaceFirst]
        rw [if_pos hpy]
      by_cases hqy : q y = true
      · have hseq : s = y := by
          rw [List.find?_cons_of_pos _ hqy] at hs
          injection hs with hs
          exact hs.symm
        have hqx : q x = true := by rw [hq, hs0]; exact hqy
        refine ⟨x, ?_, Or.inr ⟨hseq.trans hs0.symm, rfl⟩⟩
        rw [hrf, List.find?_cons_of_pos _ hqx]
      · have hqx : ¬ q x = true := by rw [hq, hs0]; exact hqy
        rw [List.find?_cons_of_neg _ hqy] at hs
        refine ⟨s, ?_, Or.inl rfl⟩
        rw [hrf, List.find?_cons_of_neg _ hqx]
        exact hs
    · have hfp' : ys.find? p = some s0 := by
        rw [List.find?_cons_of_neg _ hpy] at hfp
        exact hfp
      have hrf : replaceFirst p x (y :: ys) = y :: replaceFirst p x ys := by
        conv_lhs => rw [replaceFirst]
        rw [if_neg hpy]
      by_cases hqy : q y = true
      · have hseq : s = y := by
          rw [List.find?_cons_of_pos _ hqy] at hs
          injection hs with hs
          exact hs.symm
        refine ⟨y, ?_, Or.inl hseq.symm⟩
        rw [hrf, List.find?_cons_of_pos _ hqy]
      · rw [List.find?_cons_of_neg _ hqy] at hs
        obtain ⟨s', h1, h2⟩ := ih hfp' s hs
        refine ⟨s', ?_, h2⟩
        rw [hrf, List.find?_cons_of_neg _ hqy]
        exact h1

theorem generate_dynamic_loop_store (cats : List PCategory) (n : Nat) :
    ∀ (st : Store) (t : RandTape) (used : List String)
      (created : List DailyPrompt),
      (generate_dynamic_loop cats n st t used created).2.1.dailySets =
        st.dailySets ∧
      (generate_dynamic_loop cats n st t used created).2.1.responses =
        st.responses := by
  induction n with
  | zero =>
    intro st t used created
    exact ⟨rfl, rfl⟩
  | succ n ih =>
    intro st t used created
    by_cases hany :
        (st.catalog.any fun p => p.question = (drawPrompt cats t used).question) = true
    · have hloop : generate_dynamic_loop cats (n + 1) st t used created =
          generate_dynamic_loop cats n st (drawPrompt cats t used).tape
            (drawPrompt cats t used).templates_used created := by
        simp only [generate_dynamic_loop, create_prompt_if_unique, hany, if_true]
      rw [hloop]
      exact ih st _ _ created
    · have hloop : generate_dynamic_loop cats (n + 1) st t used created =
          generate_dynamic_loop cats n
            { st with
                catalog := st.catalog ++
                  [{ id := st.nextId
                     category := (drawPrompt cats t used).category
                     question := (drawPrompt cats t used).question
                     description := "Dynamic prompt - generated for continuous variety"
                     tags := (drawPrompt cats t used).tags
                     difficulty := (drawPrompt cats t used).difficulty
                     is_active := true }]
                nextId := st.nextId + 1 }
            (drawPrompt cats t used).tape (drawPrompt cats t used).templates_used
            (created ++
              [{ id := st.nextId
                 category := (drawPrompt cats t used).category
                 question := (drawPrompt cats t used).question
                 description := "Dynamic prompt - generated for continuous variety"
                 tags := (drawPrompt cats t used).tags
                 difficulty := (drawPrompt cats t used).difficulty
                 is_active := true }]) := by
        simp only [generate_dynamic_loop, create_prompt_if_unique, if_neg hany]
      rw [hloop]
      exact ih _ _ _ _

/-- The store produced by `generate_daily_prompts` either keeps the daily-set
collection unchanged (a set already existed) or appends exactly the returned
set, which is a freshly initialized set for `(u, d)`. -/
theorem generate_store_sets (t : RandTape) (st : Store) (u : Nat) (d : Int) :
    (generate_daily_prompts t st u d).2.dailySets = st.dailySets ∨
    ((generate_daily_prompts t st u d).2.dailySets =
      st.dailySets ++ [(generate_daily_prompts t st u d).1] ∧
     (generate_daily_prompts t st u d).1.completed_prompt_ids = [] ∧
     (generate_daily_prompts t st u d).1.completed_count = 0 ∧
     (generate_daily_prompts t st u d).1.is_fully_completed = false ∧
     (generate_daily_prompts t st u d).1.user_id = u ∧
     (generate_daily_prompts t st u d).1.date = d) := by
  cases hfs : findSet st u d with
  | some s => simp [generate_daily_prompts, hfs]
  | none =>
    right
    refine ⟨?_, by simp [generate_daily_prompts, hfs],
      by simp [generate_daily_prompts, hfs], by simp [generate_daily_prompts, hfs],
      by simp [generate_daily_prompts, hfs], by simp [generate_daily_prompts, hfs]⟩
    simp only [generate_daily_prompts, hfs]
    by_cases hrep : (availablePrompts st (used_prompt_ids st u)).length < 5
    · rw [if_pos hrep]
      exact congrArg (· ++ _) (generate_dynamic_loop_store _ 20 st t [] []).1
    · rw [if_neg hrep]

/-- Every run of `submit_prompt_response` either raises (returning the
untouched store) or succeeds. -/
theorem submit_characterize (st : Store) (u pid : Nat) (text : String)
    (ts : Nat) (mood : Option Int) (today : Int) :
    (∃ e, submit_prompt_response st u pid text ts mood today = (.error e, st)) ∨
    (∃ res st',
      submit_prompt_response st u pid text ts mood today = (.ok res, st')) := by
  cases hfs : findSet st u today with
  | none => exact Or.inl ⟨.NotFound, by simp [submit_prompt_response, hfs]⟩
  | some s0 =>
    by_cases hmem : (!(s0.prompts.any fun p => p.id == pid)) = true
    · exact Or.inl ⟨.InvalidReference,
        by simp only [submit_prompt_response, hfs, if_pos hmem]⟩
    · cases hcat : st.catalog.find? (fun p => p.id == pid) with
      | none =>
        exact Or.inl ⟨.PromptMissing,
          by simp only [submit_prompt_response, hfs, if_neg hmem, hcat]⟩
      | some prompt =>
        by_cases hdone : (s0.completed_prompt_ids.contains pid) = true
        · refine Or.inr ⟨({ completed_count := s0.completed_count,
                            total_prompts := s0.prompts.length,
                            is_fully_completed := s0.is_fully_completed,
                            tags := prompt.tags } : SubmitResult),
            { st with responses := st.responses ++
                [mkResponse u pid text ts mood today] }, ?_⟩
          simp only [submit_prompt_response, hfs, if_neg hmem, hcat, if_pos hdone]
        · refine Or.inr ⟨({ completed_count := (completeSet s0 pid).completed_count,
                            total_prompts := (completeSet s0 pid).prompts.length,
                            is_fully_completed := (completeSet s0 pid).is_fully_completed,
                            tags := prompt.tags } : SubmitResult),
            { st with
                responses := st.responses ++
                  [mkResponse u pid text ts mood today]
                dailySets :=
                  replaceFirst (fun x => x.user_id == u && x.date == today)
                    (completeSet s0 pid) st.dailySets }, ?_⟩
          simp only [submit_prompt_response, hfs, if_neg hmem, hcat, if_neg hdone]

/-- Full case analysis of a successful submission: the set found for today
contains the item, the catalog row exists, and the store update is either the
duplicate path (only a new response appended) or the first-completion path
(response appended and the found set replaced by its completion). -/
theorem submit_ok_cases (st : Store) (u pid : Nat) (text : String) (ts : Nat)
    (mood : Option Int) (today : Int) (res : SubmitResult) (st' : Store)
    (h : submit_prompt_response st u pid text ts mood today = (.ok res, st')) :
    ∃ s0 prompt,
      findSet st u today = some s0 ∧
      (s0.prompts.any fun p => p.id == pid) = true ∧
      st.catalog.find? (fun p => p.id == pid) = some prompt ∧
      ((pid ∈ s0.completed_prompt_ids ∧
        res = { completed_count := s0.completed_count,
                total_prompts := s0.prompts.length,
                is_fully_completed := s0.is_fully_completed,
                tags := prompt.tags } ∧
        st' = { st with responses := st.responses ++
          [mkResponse u pid text ts mood today] }) ∨
       (pid ∉ s0.completed_prompt_ids ∧
        res = { completed_count := (completeSet s0 pid).completed_count,
                total_prompts := (completeSet s0 pid).prompts.length,
                is_fully_completed := (completeSet s0 pid).is_fully_completed,
                tags := prompt.tags } ∧
        st' = { st with
                 responses := st.responses ++
                   [mkResponse u pid text ts mood today]
                 dailySets :=
                   replaceFirst (fun x => x.user_id == u && x.date == today)
                     (completeSet s0 pid) st.dailySets })) := by
  cases hfs : findSet st u today with
  | none =>
    rw [show submit_prompt_response st u pid text ts mood today =
      (.error .NotFound, st) from by simp [submit_prompt_response, hfs]] at h
    simp at h
  | some s0 =>
    by_cases hmem : (!(s0.prompts.any fun p => p.id == pid)) = true
    · rw [show submit_prompt_response st u pid text ts mood today =
        (.error .InvalidReference, st) from
          by simp only [submit_prompt_response, hfs, if_pos hmem]] at h
      simp at h
    · have hmem' : (s0.prompts.any fun p => p.id == pid) = true := by
        simpa using hmem
      cases hcat : st.catalog.find? (fun p => p.id == pid) with
      | none =>
        rw [show submit_prompt_response st u pid text ts mood today =
          (.error .PromptMissing, st) from
            by simp only [submit_prompt_response, hfs, if_neg hmem, hcat]] at h
        simp at h
      | some prompt =>
        have hsubmit : submit_prompt_response st u pid text ts mood today =
            (if (s0.completed_prompt_ids.contains pid) = true then
              (.ok { completed_count := s0.completed_count
                     total_prompts := s0.prompts.length
                     is_fully_completed := s0.is_fully_completed
                     tags := prompt.tags },
               { st with responses := st.responses ++
                   [mkResponse u pid text ts mood today] })
            else
              (.ok { completed_count := (completeSet s0 pid).completed_count
                     total_prompts := (completeSet s0 pid).prompts.length
                     is_fully_completed := (completeSet s0 pid).is_fully_completed
                     tags := prompt.tags },
               { st with
                  responses := st.responses ++
                    [mkResponse u pid text ts mood today]
                  dailySets :=
                    replaceFirst (fun x => x.user_id == u && x.date == today)
                      (completeSet s0 pid) st.dailySets })) := by
          simp only [submit_prompt_response, hfs, if_neg hmem, hcat]
          by_cases hdone : (s0.completed_prompt_ids.contains pid) = true
          · rw [if_pos hdone, if_pos hdone]
          · rw [if_neg hdone, if_neg hdone]
        rw [hsubmit] at h
        by_cases hdone : (s0.completed_prompt_ids.contains pid) = true
        · rw [if_pos hdone] at h
          simp only [Prod.mk.injEq, Except.ok.injEq] at h
          exact ⟨s0, prompt, rfl, hmem', rfl,
            Or.inl ⟨by simpa using hdone, h.1.symm, h.2.symm⟩⟩
        · rw [if_neg hdone] at h
          simp only [Prod.mk.injEq, Except.ok.injEq] at h
          exact ⟨s0, prompt, rfl, hmem', rfl,
            Or.inr ⟨by simpa using hdone, h.1.symm, h.2.symm⟩⟩

/-- Both service operations preserve the well-formedness of every stored
daily set. -/
theorem applyOp_wf (st : Store) (op : Op) (hwf : StoreWF st) :
    StoreWF (applyOp st op) := by
  cases op with
  | gen t u d =>
    show StoreWF (generate_daily_prompts t st u d).2
    intro s hs
    rcases generate_store_sets t st u d with h | ⟨h, h1, h2, h3, _, _⟩
    · rw [h] at hs
      exact hwf s hs
    · rw [h] at hs
      rcases List.mem_append.1 hs with hs | hs
      · exact hwf s hs
      · rw [List.mem_singleton.1 hs]
        exact setWF_of_fields _ h1 h2 h3
  | sub u pid text ts mood today =>
    show StoreWF (submit_prompt_response st u pid text ts mood today).2
    rcases submit_characterize st u pid text ts mood today with
      ⟨e, he⟩ | ⟨res, st', hok⟩
    · rw [he]
      exact hwf
    · obtain ⟨s0, prompt, hfs, hany, hcat, hcases⟩ :=
        submit_ok_cases st u pid text ts mood today res st' hok
      have hs0wf : SetWF s0 := hwf s0 (List.mem_of_find?_eq_some hfs)
      rw [hok]
      rcases hcases with ⟨hin, hres, rfl⟩ | ⟨hnin, hres, rfl⟩
      · intro s hs
        exact hwf s hs
      · intro s hs
        rcases mem_replaceFirst _ _ _ s hs with h | rfl
        · exact hwf s h
        · exact completeSet_wf s0 pid hs0wf (mem_of_any_id _ _ hany) hnin

theorem runOps_wf (ops : List Op) : ∀ st, StoreWF st → StoreWF (runOps st ops) := by
  induction ops with
  | nil => exact fun st h => h
  | cons op ops ih => exact fun st h => ih (applyOp st op) (applyOp_wf st op h)

/-- No operation removes a stored set or decreases its completion counter. -/
theorem applyOp_mono (st : Store) (op : Op) (u : Nat) (d : Int)
    (s : DailyPromptSetMongo) (hs : findSet st u d = some s) :
    ∃ s', findSet (applyOp st op) u d = some s' ∧
      s.completed_count ≤ s'.completed_count := by
  have hs' : st.dailySets.find? (fun x => x.user_id == u && x.date == d) =
      some s := hs
  cases op with
  | gen t u0 d0 =>
    rcases generate_store_sets t st u0 d0 with h | ⟨h, _, _, _, _, _⟩
    · refine ⟨s, ?_, le_refl _⟩
      show (generate_daily_prompts t st u0 d0).2.dailySets.find? _ = some s
      rw [h]
      exact hs'
    · refine ⟨s, ?_, le_refl _⟩
      show (generate_daily_prompts t st u0 d0).2.dailySets.find? _ = some s
      rw [h]
      exact find?_append_of_some _ _ _ s hs'
  | sub u0 pid text ts mood today =>
    rcases submit_characterize st u0 pid text ts mood today with
      ⟨e, he⟩ | ⟨res, st', hok⟩
    · refine ⟨s, ?_, le_refl _⟩
      show findSet (submit_prompt_response st u0 pid text ts mood today).2 u d =
        some s
      rw [congrArg Prod.snd he]
      exact hs
    · obtain ⟨s0, prompt, hfs0, hany, hcat, hcases⟩ :=
        submit_ok_cases st u0 pid text ts mood today res st' hok
      have hfs0' : st.dailySets.find?
          (fun x => x.user_id == u0 && x.date == today) = some s0 := hfs0
      have hsnd : (submit_prompt_response st u0 pid text ts mood today).2 = st' :=
        congrArg Prod.snd hok
      rcases hcases with ⟨hin, hres, rfl⟩ | ⟨hnin, hres, rfl⟩
      · refine ⟨s, ?_, le_refl _⟩
        show findSet (submit_prompt_response st u0 pid text ts mood today).2 u d =
          some s
        rw [hsnd]
        exact hs
      · have hq : ((completeSet s0 pid).user_id == u && (completeSet s0 pid).date == d) =
            (s0.user_id == u && s0.date == d) := rfl
        obtain ⟨s', h1, h2⟩ := find?_replaceFirst
          (fun x => x.user_id == u0 && x.date == today)
          (fun x => x.user_id == u && x.date == d)
          (completeSet s0 pid) st.dailySets s0 hfs0' hq s hs'
        refine ⟨s', ?_, ?_⟩
        · show findSet (submit_prompt_response st u0 pid text ts mood today).2 u d =
            some s'
          rw [hsnd]
          exact h1
        · rcases h2 with rfl | ⟨rfl, rfl⟩
          · exact le_refl _
          · simp [completeSet]

theorem runOps_mono (ops : List Op) : ∀ (st : Store) (u : Nat) (d : Int) s,
    findSet st u d = some s →
    ∃ s', findSet (runOps st ops) u d = some s' ∧
      s.completed_count ≤ s'.completed_count := by
  induction ops with
  | nil => exact fun st u d s hs => ⟨s, hs, le_refl _⟩
  | cons op ops ih =>
    intro st u d s hs
    obtain ⟨s1, h1, hle1⟩ := applyOp_mono st op u d s hs
    obtain ⟨s2, h2, hle2⟩ := ih (applyOp st op) u d s1 h1
    exact ⟨s2, h2, le_trans hle1 hle2⟩

/-! ## Claim theorems -/

/-- C3: every item placed in a newly created daily set corresponds to a
catalog row that is active at generation time (in the post-replenishment
catalog the set was drawn from) and whose id has no response record by that
user anywhere in the user's lifetime history. -/
theorem exclusion_postcondition (t : RandTape) (st : Store) (u : Nat) (d : Int)
    (h : findSet st u d = none) :
    ∀ p ∈ (generate_daily_prompts t st u d).1.prompts,
      (∃ q ∈ (generate_daily_prompts t st u d).2.catalog,
        q.id = p.id ∧ q.is_active = true ∧ q.question = p.question) ∧
      (∀ r ∈ st.responses, r.user_id = u → r.prompt_id ≠ p.id) := by
  intro p hp
  obtain ⟨q, hqcat, rfl, hact, hunused⟩ := generate_fresh_mem t st u d h p hp
  refine ⟨⟨q, hqcat, rfl, hact, rfl⟩, ?_⟩
  intro r hr hru heq
  have heq' : r.prompt_id = q.id := heq
  exact hunused (heq' ▸ mem_used_prompt_ids st u r hr hru)

theorem exclusion_postcondition_witness :
    findSet stFive 1 0 = none ∧
    ∀ p ∈ (generate_daily_prompts [] stFive 1 0).1.prompts,
      (∃ q ∈ (generate_daily_prompts [] stFive 1 0).2.catalog,
        q.id = p.id ∧ q.is_active = true ∧ q.question = p.question) ∧
      (∀ r ∈ stFive.responses, r.user_id = 1 → r.prompt_id ≠ p.id) :=
  ⟨by decide, exclusion_postcondition [] stFive 1 0 (by decide)⟩

/-- C1 (counterexample): with five active catalog items and no submissions
ever made, generating for day 0 and then for day 1 stores two daily sets on
distinct dates with identical item id lists — the union of all item ids over
the user's daily sets has duplicates, so no-repeat-ever fails as stated:
exclusion is keyed on *answered* items only, and unanswered ones recur. -/
theorem no_repeat_ever_cex :
    ((generate_daily_prompts [] (generate_daily_prompts [] stFive 7 0).2 7 1).2.dailySets.map
        fun s => (s.date, s.prompts.map PromptData.id)) =
      [(0, [1, 2, 3, 4, 5]), (1, [1, 2, 3, 4, 5])] ∧
    ¬ (((generate_daily_prompts [] (generate_daily_prompts [] stFive 7 0).2 7 1).2.dailySets.map
        fun s => s.prompts.map PromptData.id).flatten.Nodup) :=
  ⟨by decide, by decide⟩

/-- C1 (amended): no item id appears in two different daily sets of the same
user provided every item of the earlier set was answered before the later set
was generated: a newly created set is disjoint from any stored set of that
user all of whose items have recorded responses. -/
theorem no_repeat_after_full_submission (t : RandTape) (st : Store) (u : Nat)
    (d : Int) (S : DailyPromptSetMongo) (_hS : S ∈ st.dailySets)
    (_hSu : S.user_id = u)
    (hanswered : ∀ pid ∈ S.prompts.map PromptData.id,
      ∃ r ∈ st.responses, r.user_id = u ∧ r.prompt_id = pid)
    (hnew : findSet st u d = none) :
    ∀ pid ∈ (generate_daily_prompts t st u d).1.prompts.map PromptData.id,
      pid ∉ S.prompts.map PromptData.id := by
  intro pid hpid hmem
  obtain ⟨r, hr, hru, hrp⟩ := hanswered pid hmem
  obtain ⟨p, hp, rfl⟩ := List.mem_map.1 hpid
  obtain ⟨q, _, rfl, _, hunused⟩ := generate_fresh_mem t st u d hnew p hp
  have hrp' : r.prompt_id = q.id := hrp
  exact hunused (hrp' ▸ mem_used_prompt_ids st u r hr hru)

/-- C4: `_generate_dynamic_prompts(n)` creates at most `n` new catalog rows
(appended in creation order, and the returned list is exactly the rows
created), no two created rows share a question text, and no created question
existed verbatim in the catalog before the run — a clashing candidate is
skipped, not retried. -/
theorem replenisher_uniqueness (t : RandTape) (st : Store) (n : Nat) :
    (generate_dynamic_prompts t st n).1.length ≤ n ∧
    (generate_dynamic_prompts t st n).2.1.catalog =
      st.catalog ++ (generate_dynamic_prompts t st n).1 ∧
    ((generate_dynamic_prompts t st n).1.map DailyPrompt.question).Nodup ∧
    (∀ q ∈ (generate_dynamic_prompts t st n).1.map DailyPrompt.question,
      ∀ p ∈ st.catalog, p.question ≠ q) := by
  unfold generate_dynamic_prompts
  obtain ⟨newp, h1, h2, h3, h4, h5⟩ :=
    generate_dynamic_loop_spec (st.categories.filter fun c => c.is_active) n st
      t [] []
  rw [List.nil_append] at h1
  rw [h1, h2]
  exact ⟨h3, rfl, h4, h5⟩

theorem replenisher_uniqueness_witness :
    ((generate_dynamic_prompts [] stEmpty 1).1.map DailyPrompt.question =
      ["What unexpected moment brought you joy today?"]) ∧
    ((generate_dynamic_prompts [] stEmpty 1).1.length ≤ 1 ∧
     (generate_dynamic_prompts [] stEmpty 1).2.1.catalog =
       stEmpty.catalog ++ (generate_dynamic_prompts [] stEmpty 1).1 ∧
     ((generate_dynamic_prompts [] stEmpty 1).1.map DailyPrompt.question).Nodup ∧
     (∀ q ∈ (generate_dynamic_prompts [] stEmpty 1).1.map DailyPrompt.question,
       ∀ p ∈ stEmpty.catalog, p.question ≠ q)) :=
  ⟨by decide, replenisher_uniqueness [] stEmpty 1⟩

theorem no_repeat_after_full_submission_witness :
    (fullSet 0 ∈ stAnswered.dailySets ∧ (fullSet 0).user_id = 1 ∧
     (∀ pid ∈ (fullSet 0).prompts.map PromptData.id,
        ∃ r ∈ stAnswered.responses, r.user_id = 1 ∧ r.prompt_id = pid) ∧
     findSet stAnswered 1 1 = none) ∧
    ∀ pid ∈ (generate_daily_prompts [] stAnswered 1 1).1.prompts.map PromptData.id,
      pid ∉ (fullSet 0).prompts.map PromptData.id :=
  ⟨⟨by decide, by decide, by decide, by decide⟩,
   no_repeat_after_full_submission [] stAnswered 1 1 (fullSet 0) (by decide)
     (by decide) (by decide) (by decide)⟩

/-- C2: if a `DailySet` already exists for `(user, date)`, calling
`generate_daily_prompts` again returns that existing set (with its item list
untouched), creates no second set, and leaves the store — in particular the
existing set — completely unchanged. -/
theorem generation_idempotent (t : RandTape) (st : Store) (u : Nat) (d : Int)
    (s : DailyPromptSetMongo) (h : findSet st u d = some s) :
    generate_daily_prompts t st u d = (s, st) := by
  simp [generate_daily_prompts, h]

theorem generation_idempotent_witness :
    findSet stWithSet 1 0 = some fixSet ∧
      generate_daily_prompts [] stWithSet 1 0 = (fixSet, stWithSet) :=
  ⟨by decide, generation_idempotent [] stWithSet 1 0 fixSet (by decide)⟩

/-- C5: for every candidate pool without duplicates and every `k`,
`_select_diverse_prompts` returns `min |pool| k` distinct items drawn from the
pool, the result spans at least `min k (number of distinct categories)`
distinct categories, and a pool smaller than `k` is returned whole. -/
theorem diversity_selection_spec (t : RandTape) (candidates : List DailyPrompt)
    (k : Nat) (hnd : candidates.Nodup) :
    (select_diverse_prompts t candidates k).length = min candidates.length k ∧
    (select_diverse_prompts t candidates k).Nodup ∧
    (∀ p ∈ select_diverse_prompts t candidates k, p ∈ candidates) ∧
    min k ((candidates.map catName).toFinset.card) ≤
      (((select_diverse_prompts t candidates k).map catName).toFinset.card) ∧
    (candidates.length < k → select_diverse_prompts t candidates k = candidates) :=
  ⟨select_length t candidates k, select_nodup t candidates k hnd,
   select_subset t candidates k, select_span t candidates k,
   fun h => by simp [select_diverse_prompts, Nat.le_of_lt h]⟩

theorem diversity_selection_spec_witness :
    poolSix.Nodup ∧
    ((select_diverse_prompts [] poolSix 5).length = min poolSix.length 5 ∧
     (select_diverse_prompts [] poolSix 5).Nodup ∧
     (∀ p ∈ select_diverse_prompts [] poolSix 5, p ∈ poolSix) ∧
     min 5 ((poolSix.map catName).toFinset.card) ≤
       (((select_diverse_prompts [] poolSix 5).map catName).toFinset.card) ∧
     (poolSix.length < 5 → select_diverse_prompts [] poolSix 5 = poolSix)) :=
  ⟨by decide, diversity_selection_spec [] poolSix 5 (by decide)⟩

/-- C9: whenever exactly `n ≤ 365` consecutive days ending at today have a
fully completed set (day `today - n` has none), `current_streak` is exactly
`n` — the backward scan stops at the first missing or incomplete day. -/
theorem streak_arithmetic (st : Store) (u : Nat) (today : Int) (n : Nat)
    (hn : n ≤ 365)
    (hrun : ∀ i < n, hasFullSet st u (today - (i : Int)) = true)
    (hstop : hasFullSet st u (today - (n : Int)) = false) :
    (get_user_streak st u today).current_streak = n := by
  show streakLoop (hasFullSet st u) 367 0 today = n
  have := streakLoop_run (hasFullSet st u) n 367 0 today hrun hstop (by omega)
    (by omega)
  omega

theorem streak_arithmetic_witness :
    (4 ≤ 365 ∧
     (∀ i : Nat, i < 4 → hasFullSet stStreak 1 ((0 : Int) - (i : Int)) = true) ∧
     hasFullSet stStreak 1 ((0 : Int) - ((4 : Nat) : Int)) = false) ∧
    (get_user_streak stStreak 1 0).current_streak = 4 :=
  ⟨⟨by omega,
    by
      intro i hi
      have h4 : i = 0 ∨ i = 1 ∨ i = 2 ∨ i = 3 := by omega
      rcases h4 with rfl | rfl | rfl | rfl <;> decide,
    by decide⟩,
   streak_arithmetic stStreak 1 0 4 (by omega)
     (by
       intro i hi
       have h4 : i = 0 ∨ i = 1 ∨ i = 2 ∨ i = 3 := by omega
       rcases h4 with rfl | rfl | rfl | rfl <;> decide)
     (by decide)⟩

/-- C10: the backward streak scan always terminates with a result bounded by
366 whatever the per-day completeness oracle — including the oracle that
reports a fully completed set on every past day, which attains exactly 366 —
and the result does not depend on the fuel once it covers the safety break. -/
theorem streak_scan_bounded (st : Store) (u : Nat) (today : Int)
    (f : Int → Bool) (d : Int) :
    (get_user_streak st u today).current_streak ≤ 366 ∧
    streakLoop f 367 0 d ≤ 366 ∧
    streakLoop (fun _ => true) 367 0 d = 366 ∧
    (∀ fuel, 366 ≤ fuel → streakLoop f fuel 0 d = streakLoop f 367 0 d) := by
  refine ⟨?_, streakLoop_le f 367 0 d (by omega),
    streakLoop_saturates 367 0 d (by omega) (by omega), ?_⟩
  · show streakLoop (hasFullSet st u) 367 0 today ≤ 366
    exact streakLoop_le _ 367 0 today (by omega)
  · intro fuel hf
    exact streakLoop_fuel_irrelevant f fuel 367 0 d (by omega) (by omega)
      (by omega)

theorem streak_scan_bounded_witness :
    (366 ≤ 1000) ∧
    (get_user_streak stStreak 1 0).current_streak ≤ 366 ∧
    streakLoop (fun _ => false) 1000 0 0 = streakLoop (fun _ => false) 367 0 0 :=
  ⟨by omega, (streak_scan_bounded stStreak 1 0 (fun _ => false) 0).1,
   (streak_scan_bounded stStreak 1 0 (fun _ => false) 0).2.2.2 1000 (by omega)⟩

/-- C7: submission fails with `NotFound` when no set exists for `(user,
today)` and with `InvalidReference` when the item is not in the set's
snapshot; in both cases the store — responses, sets, everything — is returned
exactly as it was. -/
theorem submission_validation_atomic (st : Store) (u pid : Nat) (text : String)
    (ts : Nat) (mood : Option Int) (today : Int) :
    (findSet st u today = none →
      submit_prompt_response st u pid text ts mood today =
        (.error .NotFound, st)) ∧
    (∀ s, findSet st u today = some s →
      (s.prompts.any fun p => p.id == pid) = false →
      submit_prompt_response st u pid text ts mood today =
        (.error .InvalidReference, st)) := by
  constructor
  · intro h
    simp [submit_prompt_response, h]
  · intro s hs hmem
    simp [submit_prompt_response, hs, hmem]

theorem submission_validation_atomic_witness :
    (findSet stWithSet 1 0 = some fixSet ∧
      (fixSet.prompts.any fun p => p.id == 99) = false) ∧
    submit_prompt_response stWithSet 1 99 "hi" 0 none 0 =
      (.error .InvalidReference, stWithSet) :=
  ⟨by decide,
   (submission_validation_atomic stWithSet 1 99 "hi" 0 none 0).2 fixSet
     (by decide) (by decide)⟩

/-- C6: after every successful submission (starting from a store whose sets
are well formed — an invariant every operation preserves, last conjunct) the
set's `completed_count` equals the number of distinct completed item ids and
`is_fully_completed` holds exactly when the counter equals the item count;
resubmitting an already-completed item leaves the counter and the stored set
unchanged; and `completed_count` never decreases across any sequence of
generate/submit operations. -/
theorem completion_counters_spec (st : Store) (u pid : Nat) (text : String)
    (ts : Nat) (mood : Option Int) (today : Int) (hwf : StoreWF st) :
    (∀ res st',
      submit_prompt_response st u pid text ts mood today = (.ok res, st') →
      ∃ s', findSet st' u today = some s' ∧
        s'.completed_count = s'.completed_prompt_ids.dedup.length ∧
        (s'.is_fully_completed = true ↔
          s'.completed_count = s'.prompts.length) ∧
        res.completed_count = s'.completed_count ∧
        res.total_prompts = s'.prompts.length ∧
        res.is_fully_completed = s'.is_fully_completed) ∧
    (∀ s0 res st', findSet st u today = some s0 →
      pid ∈ s0.completed_prompt_ids →
      submit_prompt_response st u pid text ts mood today = (.ok res, st') →
      res.completed_count = s0.completed_count ∧
      findSet st' u today = some s0) ∧
    (∀ ops s s', findSet st u today = some s →
      findSet (runOps st ops) u today = some s' →
      s.completed_count ≤ s'.completed_count) ∧
    (∀ ops, StoreWF (runOps st ops)) := by
  refine ⟨?_, ?_, ?_, fun ops => runOps_wf ops st hwf⟩
  · intro res st' h
    obtain ⟨s0, prompt, hfs, hany, hcat, hcases⟩ :=
      submit_ok_cases st u pid text ts mood today res st' h
    have hs0wf : SetWF s0 := hwf s0 (List.mem_of_find?_eq_some hfs)
    have hlen0 : 0 < s0.prompts.length := by
      have hmem := mem_of_any_id s0.prompts pid hany
      have hne : s0.prompts ≠ [] := by
        intro hnil
        rw [hnil] at hmem
        simp at hmem
      exact List.length_pos.2 hne
    rcases hcases with ⟨hin, rfl, rfl⟩ | ⟨hnin, rfl, rfl⟩
    · refine ⟨s0, ?_, ?_, ?_, rfl, rfl, rfl⟩
      · show st.dailySets.find? _ = some s0
        exact hfs
      · rw [List.dedup_eq_self.2 hs0wf.2.1]
        exact hs0wf.1
      · rw [hs0wf.2.2.2]
        exact ⟨fun h => h.1, fun h => ⟨h, hlen0⟩⟩
    · have hcwf := completeSet_wf s0 pid hs0wf (mem_of_any_id _ _ hany) hnin
      refine ⟨completeSet s0 pid, ?_, ?_, ?_, rfl, rfl, rfl⟩
      · show (replaceFirst (fun x => x.user_id == u && x.date == today)
            (completeSet s0 pid) st.dailySets).find?
            (fun x => x.user_id == u && x.date == today) = some (completeSet s0 pid)
        have hfs2 : st.dailySets.find?
            (fun x => x.user_id == u && x.date == today) = some s0 := hfs
        have hpred0 := List.find?_some hfs2
        have hpred : ((completeSet s0 pid).user_id == u &&
            (completeSet s0 pid).date == today) = true := hpred0
        exact find?_replaceFirst_self _ _ _ hpred s0 hfs2
      · rw [List.dedup_eq_self.2 hcwf.2.1]
        exact hcwf.1
      · rw [hcwf.2.2.2]
        refine ⟨fun h => h.1, fun h => ⟨h, ?_⟩⟩
        show 0 < s0.prompts.length
        exact hlen0
  · intro s0' res st' hfs' hin h
    obtain ⟨s0, prompt, hfs, hany, hcat, hcases⟩ :=
      submit_ok_cases st u pid text ts mood today res st' h
    have heq : s0 = s0' := Option.some.inj (hfs.symm.trans hfs')
    subst heq
    rcases hcases with ⟨_, rfl, rfl⟩ | ⟨hnin, rfl, rfl⟩
    · exact ⟨rfl, hfs'⟩
    · exact absurd hin hnin
  · intro ops s s' hs hs'
    obtain ⟨s'', h1, hle⟩ := runOps_mono ops st u today s hs
    rw [hs'] at h1
    injection h1 with h1
    rw [h1]
    exact hle

theorem completion_counters_spec_witness :
    StoreWF stWithSet ∧
    ((∀ res st',
      submit_prompt_response stWithSet 1 2 "hi" 0 none 0 = (.ok res, st') →
      ∃ s', findSet st' 1 0 = some s' ∧
        s'.completed_count = s'.completed_prompt_ids.dedup.length ∧
        (s'.is_fully_completed = true ↔
          s'.completed_count = s'.prompts.length) ∧
        res.completed_count = s'.completed_count ∧
        res.total_prompts = s'.prompts.length ∧
        res.is_fully_completed = s'.is_fully_completed) ∧
    (∀ s0 res st', findSet stWithSet 1 0 = some s0 →
      2 ∈ s0.completed_prompt_ids →
      submit_prompt_response stWithSet 1 2 "hi" 0 none 0 = (.ok res, st') →
      res.completed_count = s0.completed_count ∧
      findSet st' 1 0 = some s0) ∧
    (∀ ops s s', findSet stWithSet 1 0 = some s →
      findSet (runOps stWithSet ops) 1 0 = some s' →
      s.completed_count ≤ s'.completed_count) ∧
    (∀ ops, StoreWF (runOps stWithSet ops))) :=
  ⟨by decide, completion_counters_spec stWithSet 1 2 "hi" 0 none 0 (by decide)⟩

/-- C8 (counterexample): with a response record for (user 1, item 1) already
stored, a second valid submission of item 1 succeeds and leaves two response
records for that (user, item) pair — the code has no deduplication guard, so
the claim fails as stated. -/
theorem exposure_duplicate_cex :
    ((stWithSet.responses.filter
        fun r => r.user_id == 1 && r.prompt_id == 1).length = 1) ∧
    (submit_prompt_response stWithSet 1 1 "hello" 0 none 0).1 =
      .ok { completed_count := 1, total_prompts := 2,
            is_fully_completed := false, tags := ["t"] } ∧
    (((submit_prompt_response stWithSet 1 1 "hello" 0 none 0).2.responses.filter
        fun r => r.user_id == 1 && r.prompt_id == 1).length = 2) :=
  ⟨by decide, by decide, by decide⟩

/-- C8 (amended): a successful submission always appends exactly one new
`Response` record for the (user, item) pair — even when one already exists,
the code creates a duplicate record, having no dedup guard — but the
completion tracking is idempotent: when the item is already among the set's
completed ids, the stored daily sets are left completely unchanged. -/
theorem duplicate_submit_no_dedup (st : Store) (u pid : Nat) (text : String)
    (ts : Nat) (mood : Option Int) (today : Int) (res : SubmitResult)
    (st' : Store)
    (h : submit_prompt_response st u pid text ts mood today = (.ok res, st')) :
    st'.responses = st.responses ++ [mkResponse u pid text ts mood today] ∧
    (∀ s0, findSet st u today = some s0 → pid ∈ s0.completed_prompt_ids →
      st'.dailySets = st.dailySets) := by
  obtain ⟨s0, prompt, hfs, hany, hcat, hcases⟩ :=
    submit_ok_cases st u pid text ts mood today res st' h
  rcases hcases with ⟨hin, hres, rfl⟩ | ⟨hnin, hres, rfl⟩
  · exact ⟨rfl, fun s1 hs1 hin1 => rfl⟩
  · refine ⟨rfl, ?_⟩
    intro s1 hs1 hin1
    rw [hfs] at hs1
    injection hs1 with hs1
    rw [← hs1] at hin1
    exact absurd hin1 hnin

theorem duplicate_submit_no_dedup_witness :
    (submit_prompt_response stWithSet 1 1 "hello" 0 none 0 =
      (.ok resDup, stDupAfter)) ∧
    (stDupAfter.responses =
        stWithSet.responses ++ [mkResponse 1 1 "hello" 0 none 0] ∧
     (∀ s0, findSet stWithSet 1 0 = some s0 → 1 ∈ s0.completed_prompt_ids →
       stDupAfter.dailySets = stWithSet.dailySets)) :=
  ⟨by decide,
   duplicate_submit_no_dedup stWithSet 1 1 "hello" 0 none 0 resDup stDupAfter
     (by decide)⟩

end MindNotes
